import Mathlib

/-!
Verification of the KNOUX-ORG image organizer core against its
natural-language specification.

The definitions below are a shallow embedding of the TypeScript sources
`src/src/hooks/use-image-organizer.ts` (the `useImageOrganizer` hook and
the `UnifiedAIEngine` class it drives).  JavaScript numbers are modelled
as `ℚ` (exact rational arithmetic; the source algorithms use only field
operations except `Math.sqrt`, which is modelled with `Real.sqrt` where
its value is observable, and replaced by the equivalent comparison of the
radicands where only comparisons of square roots are performed).
Optional (`?`) fields become `Option`; a thrown exception becomes an
`Except`/`Option` error value.
-/

set_option maxHeartbeats 1000000
set_option maxRecDepth 40000

/-- The closed `ImageCategory` enumeration from
`src/unnamed/part_000` (`export type ImageCategory = ...`). -/
inductive Category where
  | selfies | documents | screenshots | nature | food | art | nsfw
  | duplicates | general | memes | receipts | qrCodes | pets
  | vehicles | architecture
  deriving DecidableEq, Repr

/-- The five NSFW class names of the `nsfw` entries of `ImageAnalysis`. -/
inductive NsfwClass where
  | porn | hentai | sexy | drawing | neutral
  deriving DecidableEq, Repr

/-- One NSFW prediction `{ className, probability }`. -/
structure NsfwPred where
  className : NsfwClass
  probability : ℚ
  deriving DecidableEq, Repr

/-- One classification entry `{ label, score }`. -/
structure LabelScore where
  label : String
  score : ℚ
  deriving DecidableEq, Repr

/-- One detected face.  The `box` payload (an untyped `any` rectangle) is
display-only and is not inspected by any of the verified code paths, so it
is omitted from the embedding. -/
structure FaceM where
  age : ℤ
  gender : String
  expression : String
  confidence : ℚ
  deriving DecidableEq, Repr

/-- The quality record returned by `analyzeQuality`
(`{ sharpness, contrast, brightness, score }`).  Fields are real numbers
because `contrast` and `sharpness` involve `Math.sqrt`. -/
structure QualityM where
  sharpness : ℝ
  contrast : ℝ
  brightness : ℝ
  score : ℝ

/-- The `ImageAnalysis` record (engine half of the source file), restricted
to the fields the verified functions read.  The legacy compatibility
aliases (`confidence`, `dominantColors`, ...) are derived data written only
by the hook and read by the UI, so they are not modelled. -/
structure ImageAnalysisM where
  width : Nat
  height : Nat
  sizeMB : ℚ
  classification : Option (List LabelScore)
  description : Option String
  objects : Option (List LabelScore)
  nsfw : Option (List NsfwPred)
  faces : Option (List FaceM)
  ocrText : Option String
  pHash : Option String
  quality : Option QualityM
  palette : Option (List String)
  error : Option String

/-- An `ImageAnalysisM` with no analysis fields populated, as built at the
top of `UnifiedAIEngine.analyze` before any stage runs. -/
def emptyAnalysis (w h : Nat) (sz : ℚ) : ImageAnalysisM :=
  { width := w, height := h, sizeMB := sz
    classification := none, description := none, objects := none
    nsfw := none, faces := none, ocrText := none, pHash := none
    quality := none, palette := none, error := none }

/-- The `AiSettings` configuration record of the engine. -/
structure AiSettings where
  runClassifier : Bool
  runCaptioner : Bool
  runObjectDetection : Bool
  runNsfw : Bool
  nsfwThreshold : ℚ
  runFaceDetection : Bool
  runOcr : Bool
  runDuplicateDetection : Bool
  runQualityAnalysis : Bool
  runColorPalette : Bool
  deriving DecidableEq, Repr

/-- `defaultAiSettings` from the engine source. -/
def defaultAiSettings : AiSettings :=
  { runClassifier := true, runCaptioner := true, runObjectDetection := false
    runNsfw := true, nsfwThreshold := 7/10, runFaceDetection := true
    runOcr := true, runDuplicateDetection := true
    runQualityAnalysis := true, runColorPalette := true }

/-- Does the character list `p` occur at the head of `l`? (helper for the
embedding of JavaScript `String.prototype.includes`). -/
def chStarts : List Char → List Char → Bool
  | [], _ => true
  | _ :: _, [] => false
  | p :: ps, c :: cs => p == c && chStarts ps cs

/-- Does the character list `p` occur contiguously inside `l`? -/
def chContains (p : List Char) : List Char → Bool
  | [] => chStarts p []
  | c :: cs => chStarts p (c :: cs) || chContains p cs

/-- Embedding of JavaScript `s.includes(sub)`: `sub` occurs as a
contiguous substring of `s`. -/
def strIncludes (s sub : String) : Bool :=
  chContains sub.data s.data

/-- Rule 3 of `categorizeImage` (the `analysis.classification` block):
keyword matching over the lower-cased top label.  Returns `none` when the
classification list is absent or empty, or when the top label matches no
keyword group — in the source, control then falls through to the NSFW
check. -/
def classificationCategory : Option (List LabelScore) → Option Category
  | some (top :: _) =>
    let l := top.label.toLower
    if strIncludes l "screen" || strIncludes l "computer" then some .screenshots
    else if strIncludes l "nature" || strIncludes l "landscape" ||
        strIncludes l "mountain" || strIncludes l "beach" then some .nature
    else if strIncludes l "food" || strIncludes l "meal" ||
        strIncludes l "dish" then some .food
    else if strIncludes l "art" || strIncludes l "painting" then some .art
    else if strIncludes l "pet" || strIncludes l "animal" then some .pets
    else if strIncludes l "car" || strIncludes l "vehicle" then some .vehicles
    else if strIncludes l "building" || strIncludes l "architecture" then
      some .architecture
    else none
  | _ => none

/-- `UnifiedAIEngine.categorizeImage`.  The JS truthiness guards
(`analysis.faces && analysis.faces.length > 0`,
`analysis.ocrText && analysis.ocrText.length > 50`) are embedded through
`Option.getD`: an absent list behaves like `[]` and an absent text like
`""` (an empty string is falsy in JS, and also has length `0 ≤ 50`, so the
two readings agree).  Note that the function takes no settings argument:
the NSFW threshold is the literal `0.7`. -/
def categorizeImage (a : ImageAnalysisM) : Category :=
  if 0 < (a.faces.getD []).length then .selfies
  else if 50 < (a.ocrText.getD "").length then .documents
  else
    match classificationCategory a.classification with
    | some c => c
    | none =>
      if (a.nsfw.getD []).any (fun n => (7:ℚ)/10 < n.probability) then .nsfw
      else .general

/-! ## The analysis orchestrator (`UnifiedAIEngine.analyze`)

`analyze` runs up to nine stages over one image.  The six
capability-backed stages call an external model; the outcome of each such
external call (a value, or a thrown error) is an input of the embedding,
as is the availability of each provider (`this.models.X` loaded and not
marked failed).  The three algorithmic stages (pHash, quality, palette)
are likewise modelled by their outcome, since their canvas operations can
throw in the environment (and `extractColorPalette` itself throws on an
all-transparent image, see `extractColorPalette` below). -/

/-- The environment of one `analyze` call: availability of each provider,
the raw outcome (`.ok` value or `.error` message for a thrown exception)
of each stage's external or canvas work, the file name consulted by the
fallback heuristics, and the random index drawn by `fallbackCaption`. -/
structure StageRun where
  classifierAvailable : Bool
  classifyRaw : Except String (List LabelScore)
  captionerAvailable : Bool
  captionRaw : Except String (Option String)
  objectDetectorLoaded : Bool
  objectsRaw : Except String (List LabelScore)
  nsfwAvailable : Bool
  nsfwRaw : Except String (List NsfwPred)
  faceAvailable : Bool
  facesRaw : Except String (List FaceM)
  ocrAvailable : Bool
  ocrRaw : Except String String
  phashRaw : Except String String
  qualityRaw : Except String QualityM
  paletteRaw : Except String (List String)
  filename : String
  captionFallbackIdx : Nat

/-- `fallbackClassification`: file-name keyword heuristic. -/
def fallbackClassification (fileName : String) : List LabelScore :=
  let f := fileName.toLower
  if strIncludes f "selfie" || strIncludes f "portrait" then
    [{ label := "person", score := 9/10 }]
  else if strIncludes f "screenshot" then
    [{ label := "screenshot", score := 19/20 }]
  else if strIncludes f "document" then
    [{ label := "document", score := 17/20 }]
  else if strIncludes f "food" then [{ label := "food", score := 4/5 }]
  else if strIncludes f "nature" then [{ label := "nature", score := 4/5 }]
  else [{ label := "image", score := 3/5 }]

/-- The three canned `fallbackCaption` descriptions. -/
def fallbackCaptions : List String :=
  ["A clear and well-composed image",
   "An interesting visual capture",
   "A quality photograph with good details"]

/-- `fallbackCaption`: a random pick among the three descriptions; the
drawn index is an input of the embedding. -/
def fallbackCaption (idx : Nat) : String :=
  fallbackCaptions.getD idx ""

/-- `fallbackFaceDetection`: file-name keyword heuristic. -/
def fallbackFaceDetection (fileName : String) : List FaceM :=
  let f := fileName.toLower
  if strIncludes f "selfie" || strIncludes f "portrait" then
    [{ age := 25, gender := "unknown", expression := "neutral",
       confidence := 4/5 }]
  else []

/-- `classifyImage`: the model result truncated to 5 entries if the
provider is available and its call succeeds; the filename fallback both
when the provider is unavailable and when the call throws (the `catch`
falls through to the same fallback). -/
def classifyStage (run : StageRun) : List LabelScore :=
  if run.classifierAvailable then
    match run.classifyRaw with
    | .ok r => r.take 5
    | .error _ => fallbackClassification run.filename
  else fallbackClassification run.filename

/-- `generateCaption`: `result[0]?.generated_text || "Unable to generate
caption"` on success (a missing or empty generated text is falsy and
yields the literal), the canned fallback otherwise. -/
def captionStage (run : StageRun) : String :=
  if run.captionerAvailable then
    match run.captionRaw with
    | .ok t =>
      match t with
      | some s => if s = "" then "Unable to generate caption" else s
      | none => "Unable to generate caption"
    | .error _ => fallbackCaption run.captionFallbackIdx
  else fallbackCaption run.captionFallbackIdx

/-- `detectObjects`: the mapped model result, or `[]` when the call
throws.  (The stage only runs at all when the detector is loaded, see
`analyze`.) -/
def objectsStage (run : StageRun) : List LabelScore :=
  match run.objectsRaw with
  | .ok r => r
  | .error _ => []

/-- `detectNSFW`: predictions with probability above `0.01` when the model
is available and the call succeeds; otherwise the single fallback
prediction `{ className: "Neutral", probability: 0.95 }` (both when the
model is unavailable and when the call throws). -/
def detectNSFWStage (run : StageRun) : List NsfwPred :=
  if run.nsfwAvailable then
    match run.nsfwRaw with
    | .ok preds => preds.filter (fun p => (1:ℚ)/100 < p.probability)
    | .error _ => [{ className := .neutral, probability := 19/20 }]
  else [{ className := .neutral, probability := 19/20 }]

/-- `detectFaces`: the mapped detections on success, the filename fallback
when face-api is unavailable or the call throws. -/
def detectFacesStage (run : StageRun) : List FaceM :=
  if run.faceAvailable then
    match run.facesRaw with
    | .ok fs => fs
    | .error _ => fallbackFaceDetection run.filename
  else fallbackFaceDetection run.filename

/-- `extractText`: the trimmed recognized text, `""` when the OCR worker
is unavailable or the call throws. -/
def extractTextStage (run : StageRun) : String :=
  if run.ocrAvailable then
    match run.ocrRaw with
    | .ok t => t.trim
    | .error _ => ""
  else ""

/-- Stage 9 (colour palette) inside the shared image-level `try`: a
thrown error sets `analysis.error` and ends the stage sequence. -/
def paletteStagePhase (s : AiSettings) (run : StageRun)
    (a : ImageAnalysisM) : ImageAnalysisM :=
  if s.runColorPalette then
    match run.paletteRaw with
    | .error e => { a with error := some ("Analysis error: " ++ e) }
    | .ok p => { a with palette := some p }
  else a

/-- Stage 8 (quality) inside the shared image-level `try`: a thrown error
sets `analysis.error` and skips the palette stage. -/
def qualityStagePhase (s : AiSettings) (run : StageRun)
    (a : ImageAnalysisM) : ImageAnalysisM :=
  if s.runQualityAnalysis then
    match run.qualityRaw with
    | .error e => { a with error := some ("Analysis error: " ++ e) }
    | .ok q => paletteStagePhase s run { a with quality := some q }
  else paletteStagePhase s run a

/-- Stage 7 (perceptual hash) inside the shared image-level `try`: a
thrown error sets `analysis.error` and skips quality and palette. -/
def phashStagePhase (s : AiSettings) (run : StageRun)
    (a : ImageAnalysisM) : ImageAnalysisM :=
  if s.runDuplicateDetection then
    match run.phashRaw with
    | .error e => { a with error := some ("Analysis error: " ++ e) }
    | .ok h => qualityStagePhase s run { a with pHash := some h }
  else qualityStagePhase s run a

/-- `UnifiedAIEngine.analyze` for one image.  Stages 1–6 wrap every
provider call in their own `try`/`catch` with a total fallback, so they
never propagate an exception; all nine stages sit in one shared `try`
whose `catch` records `` `Analysis error: ${error}` `` on the result, so a
throw in stages 7–9 ends the stage sequence there.  Dimensions and size
are computed before the `try` and always populated. -/
def analyze (s : AiSettings) (run : StageRun) (w h : Nat) (sz : ℚ) :
    ImageAnalysisM :=
  let a := emptyAnalysis w h sz
  let a := if s.runClassifier then
      { a with classification := some (classifyStage run) } else a
  let a := if s.runCaptioner then
      { a with description := some (captionStage run) } else a
  let a := if s.runObjectDetection && run.objectDetectorLoaded then
      { a with objects := some (objectsStage run) } else a
  let a := if s.runNsfw then
      { a with nsfw := some (detectNSFWStage run) } else a
  let a := if s.runFaceDetection then
      { a with faces := some (detectFacesStage run) } else a
  let a := if s.runOcr then
      { a with ocrText := some (extractTextStage run) } else a
  phashStagePhase s run a

/-! ## Duplicate grouper (`findSimilarImages`) -/

/-- A `DuplicateGroup` (`{ group: string[]; similarity: number }`). -/
structure DuplicateGroupM where
  group : List String
  similarity : ℚ
  deriving DecidableEq, Repr

/-- An entry of the input of `findSimilarImages`: the image id and
`analysis.pHash`, the only two fields the function reads (`none` models an
`undefined` hash). -/
abbrev DupEntry := String × Option String

/-- `calculateHashSimilarity`: `0` for hashes of different length,
otherwise the fraction of positions with equal characters.  For two empty
strings the source computes `0/0 = NaN`, which compares false against the
`0.85` threshold exactly as the `0` produced here does (and the only
caller skips falsy hashes before ever reaching that case). -/
def calculateHashSimilarity (h1 h2 : String) : ℚ :=
  if h1.length ≠ h2.length then 0
  else ((h1.data.zip h2.data).countP (fun p => p.1 == p.2) : ℚ) /
    (h1.length : ℚ)

/-- The inner scan of `findSimilarImages`: starting from the group of the
current image, walk the remaining images; a not-yet-processed image with a
truthy hash whose similarity to the group starter's hash exceeds `0.85` is
appended to the group and marked processed.  Returns the final group and
processed set. -/
def fsiInner (h1 : String) :
    List DupEntry → List String → List String → List String × List String
  | [], proc, grp => (grp, proc)
  | e :: rest, proc, grp =>
    if e.1 ∈ proc then fsiInner h1 rest proc grp
    else
      match e.2 with
      | none => fsiInner h1 rest proc grp
      | some h2 =>
        if h2 = "" then fsiInner h1 rest proc grp
        else if (85:ℚ)/100 < calculateHashSimilarity h1 h2 then
          fsiInner h1 rest (e.1 :: proc) (grp ++ [e.1])
        else fsiInner h1 rest proc grp

/-- The outer pass of `findSimilarImages`: each not-yet-processed image
with a truthy hash starts a group; after the inner scan the group is
emitted with the fixed similarity `0.9` iff it has more than one member,
and then all its members are marked processed. -/
def fsiOuter : List DupEntry → List String → List DuplicateGroupM
  | [], _ => []
  | e :: rest, proc =>
    if e.1 ∈ proc then fsiOuter rest proc
    else
      match e.2 with
      | none => fsiOuter rest proc
      | some h1 =>
        if h1 = "" then fsiOuter rest proc
        else
          if 1 < (fsiInner h1 rest proc [e.1]).1.length then
            { group := (fsiInner h1 rest proc [e.1]).1, similarity := 9/10 } ::
              fsiOuter rest
                ((fsiInner h1 rest proc [e.1]).1 ++ (fsiInner h1 rest proc [e.1]).2)
          else fsiOuter rest (fsiInner h1 rest proc [e.1]).2

/-- `UnifiedAIEngine.findSimilarImages`. -/
def findSimilarImages (l : List DupEntry) : List DuplicateGroupM :=
  fsiOuter l []

/-- "e passes the inner test against starter hash h1": e has a truthy hash
whose similarity to `h1` exceeds `0.85`. -/
def passesTest (h1 : String) (e : DupEntry) : Prop :=
  ∃ h2, e.2 = some h2 ∧ h2 ≠ "" ∧
    (85:ℚ)/100 < calculateHashSimilarity h1 h2

/-! ## Perceptual hash (`generatePHash`)

The canvas work (downsampling to 32×32 and reading back the RGBA buffer)
is the environment's, and any fixed-function resampler is deterministic
for identical input pixels; the embedding starts from the flattened RGBA
byte list `imageData.data` (length `4·32·32 = 4096` for a real canvas). -/

/-- The per-sample luminances `(r+g+b)/3`, walking the flattened RGBA list
four bytes at a time exactly like the source's `i += 4` loops.  (A real
`ImageData` buffer always has length a multiple of 4.) -/
def lumaList : List Nat → List ℚ
  | r :: g :: b :: _a :: rest => ((r:ℚ) + g + b) / 3 :: lumaList rest
  | _ => []

/-- The bit string of `generatePHash`'s second loop: `'1'` where the
sample's luminance strictly exceeds the average, else `'0'`. -/
def phashBits (avg : ℚ) : List ℚ → String
  | [] => ""
  | b :: rest => (if avg < b then "1" else "0") ++ phashBits avg rest

/-- `generatePHash` from the flattened RGBA buffer: average luminance over
`data.length / 4` samples, then one bit per sample. -/
def generatePHash (data : List Nat) : String :=
  let ls := lumaList data
  let avg := ls.sum / ((data.length : ℚ) / 4)
  phashBits avg ls

/-! ## Quality analyzer (`analyzeQuality` / `calculateSharpness`)

The input is the flattened RGBA byte buffer read back from the
(≤ 400×400) canvas, together with its dimensions.  `Math.sqrt` values are
observable here (they enter `contrast` and `sharpness`), so these
definitions live in `ℝ`. -/

/-- A decoded pixel buffer: `ImageData`-style flattened RGBA byte list
with its dimensions (`data.length = 4 * width * height` for a real
canvas). -/
structure ImageDataM where
  width : Nat
  height : Nat
  data : List Nat

/-- `data[i]` as a rational (indices used by the source are always in
bounds when `data.length = 4 * width * height`, see
`sharpness_indices_in_bounds`). -/
def pxq (d : ImageDataM) (i : Nat) : ℚ :=
  (d.data.getD i 0 : ℚ)

/-- `parseFloat(x.toFixed(3))`: for the nonnegative values produced by
`analyzeQuality` this is rounding half-up to 3 decimal places. -/
noncomputable def round3 (x : ℝ) : ℝ :=
  (⌊x * 1000 + 1/2⌋ : ℝ) / 1000

/-- The Sobel gradient magnitude at interior pixel `(x, y)` — the body of
`calculateSharpness`'s double loop, with the source's flattened index
arithmetic. -/
noncomputable def sobelMag (d : ImageDataM) (x y : Nat) : ℝ :=
  let w := d.width
  let i := (y * w + x) * 4
  let tl := (pxq d (i - w*4 - 4) + pxq d (i - w*4 - 3) + pxq d (i - w*4 - 2)) / 3
  let tm := (pxq d (i - w*4) + pxq d (i - w*4 + 1) + pxq d (i - w*4 + 2)) / 3
  let tr := (pxq d (i - w*4 + 4) + pxq d (i - w*4 + 5) + pxq d (i - w*4 + 6)) / 3
  let ml := (pxq d (i - 4) + pxq d (i - 3) + pxq d (i - 2)) / 3
  let mr := (pxq d (i + 4) + pxq d (i + 5) + pxq d (i + 6)) / 3
  let bl := (pxq d (i + w*4 - 4) + pxq d (i + w*4 - 3) + pxq d (i + w*4 - 2)) / 3
  let bm := (pxq d (i + w*4) + pxq d (i + w*4 + 1) + pxq d (i + w*4 + 2)) / 3
  let br := (pxq d (i + w*4 + 4) + pxq d (i + w*4 + 5) + pxq d (i + w*4 + 6)) / 3
  let sobelX := -1 * tl + 1 * tr + -2 * ml + 2 * mr + -1 * bl + 1 * br
  let sobelY := -1 * tl + -2 * tm + -1 * tr + 1 * bl + 2 * bm + 1 * br
  Real.sqrt ((sobelX * sobelX + sobelY * sobelY : ℚ) : ℝ)

/-- `calculateSharpness`: accumulated Sobel magnitude over the interior
pixels (`1 ≤ y < height-1`, `1 ≤ x < width-1`), normalized by
`width·height·255`. -/
noncomputable def calculateSharpness (d : ImageDataM) : ℝ :=
  (((List.range' 1 (d.height - 1 - 1)).map (fun y =>
      ((List.range' 1 (d.width - 1 - 1)).map (fun x => sobelMag d x y)).sum)).sum) /
    ((d.width * d.height * 255 : ℕ) : ℝ)

/-- `analyzeQuality`: brightness = mean luminance / 255, contrast =
population standard deviation of luminance / 255, sharpness clamped to 1,
composite score = mean of the three sub-scores, all rounded to 3 decimal
places. -/
noncomputable def analyzeQuality (d : ImageDataM) : QualityM :=
  let bvs := lumaList d.data
  let avgBrightness : ℚ := bvs.sum / (bvs.length : ℚ)
  let contrast : ℝ :=
    Real.sqrt (((bvs.map (fun b => (b - avgBrightness)^2)).sum /
      (bvs.length : ℚ) : ℚ) : ℝ) / 255
  let sharpness := calculateSharpness d
  let brightnessScore : ℚ := 1 - |avgBrightness - 128| / 128
  let contrastScore : ℝ := min (contrast * 2) 1
  let sharpnessScore : ℝ := min sharpness 1
  let overallScore : ℝ :=
    ((brightnessScore : ℝ) + contrastScore + sharpnessScore) / 3
  { sharpness := round3 sharpnessScore
    contrast := round3 contrast
    brightness := round3 ((avgBrightness : ℝ) / 255)
    score := round3 overallScore }

/-! ## Colour palette (`extractColorPalette` / `kMeansClustering`)

The only use of `Math.sqrt` here is the comparison
`Math.sqrt(q) < minDistance` between Euclidean distances; since
`Real.sqrt` is strictly monotone on nonnegative reals, comparing the
radicands is equivalent (lemma `sqrt_lt_sqrt_iff_of_sq` below), and the
embedding compares squared distances so that the function stays
executable.  `Math.random()` draws are an explicit input stream. -/

/-- An RGB triple (channels are rationals: pixels are bytes, centroids
become channel means). -/
abbrev RGBQ := ℚ × ℚ × ℚ

/-- The retained pixel list of `extractColorPalette`: every RGBA group of
the flattened buffer whose alpha exceeds 128. -/
def retainedPixels : List Nat → List RGBQ
  | r :: g :: b :: a :: rest =>
    (if 128 < a then [((r:ℚ), (g:ℚ), (b:ℚ))] else []) ++ retainedPixels rest
  | _ => []

/-- Squared Euclidean distance in RGB space (the radicand of the source's
`Math.sqrt`). -/
def sqDist (p c : RGBQ) : ℚ :=
  (p.1 - c.1)^2 + (p.2.1 - c.2.1)^2 + (p.2.2 - c.2.2)^2

/-- The assignment loop of `kMeansClustering`: index of the nearest
centroid.  The `minDistance = Infinity` start is modelled by an
`Option ℚ` running minimum (`none` = no distance seen yet, and
`d < Infinity` always holds for the finite distances occurring here);
strict improvement means the lowest index wins ties, as in the source. -/
def closestCentroid (p : RGBQ) (cs : List RGBQ) : Nat :=
  (cs.enum.foldl (fun (acc : Nat × Option ℚ) jc =>
    match acc.2 with
    | none => (jc.1, some (sqDist p jc.2))
    | some m =>
      if sqDist p jc.2 < m then (jc.1, some (sqDist p jc.2)) else acc)
    (0, none)).1

/-- One k-means iteration: assign every pixel to its nearest centroid,
then replace each centroid that received at least one pixel by the mean of
its cluster. -/
def kMeansStep (pixels : List RGBQ) (cs : List RGBQ) : List RGBQ :=
  cs.enum.map (fun jc =>
    let cluster := pixels.filter (fun p => closestCentroid p cs == jc.1)
    if cluster.length = 0 then jc.2
    else ((cluster.map (fun p => p.1)).sum / (cluster.length : ℚ),
          (cluster.map (fun p => p.2.1)).sum / (cluster.length : ℚ),
          (cluster.map (fun p => p.2.2)).sum / (cluster.length : ℚ)))

/-- `pixels[Math.floor(q)]`: JavaScript array indexing with a
floored number; out-of-range (in particular any index into an empty
array) yields `undefined`, which the caller's `[...randomPixel]` spread
turns into a thrown `TypeError` — modelled as `none`. -/
def jsArrayGet (l : List RGBQ) (q : ℚ) : Option RGBQ :=
  let i := Int.floor q
  if i < 0 then none else l.get? i.toNat

/-- The centroid initialization of `kMeansClustering`: `k` draws
`pixels[Math.floor(rand i * pixels.length)]`; `none` models the
`TypeError` thrown when a draw indexes outside the array (always the case
when `pixels` is empty). -/
def kMeansInit (pixels : List RGBQ) (k : Nat) (rand : Nat → ℚ) :
    Option (List RGBQ) :=
  (List.range k).mapM (fun i => jsArrayGet pixels (rand i * (pixels.length : ℚ)))

/-- `kMeansClustering`: random initialization then exactly 20 assign/update
iterations (no convergence check). -/
def kMeansClustering (pixels : List RGBQ) (k : Nat) (rand : Nat → ℚ) :
    Option (List RGBQ) :=
  (kMeansInit pixels k rand).map (fun cs => Nat.iterate (kMeansStep pixels) 20 cs)

/-- `Math.round` for the nonnegative channel values appearing here:
round half towards `+∞`. -/
def jsRound (q : ℚ) : ℤ :=
  Int.floor (q + 1/2)

/-- `Math.round(c).toString(16).padStart(2, "0")`. -/
def hexByte (n : Nat) : String :=
  let s := String.mk (Nat.toDigits 16 n)
  if s.length < 2 then "0" ++ s else s

/-- A centroid as a `#rrggbb` colour string. -/
def rgbToHex (c : RGBQ) : String :=
  "#" ++ hexByte (jsRound c.1).toNat ++ hexByte (jsRound c.2.1).toNat ++
    hexByte (jsRound c.2.2).toNat

/-- `extractColorPalette` from the flattened 150×150 RGBA buffer and the
`Math.random()` stream: filter near-transparent pixels, run k-means with
`k = 5`, convert the centroids to hex strings.  `none` models the
`TypeError` thrown inside `kMeansClustering` when the retained pixel set
is empty. -/
def extractColorPalette (data : List Nat) (rand : Nat → ℚ) :
    Option (List String) :=
  (kMeansClustering (retainedPixels data) 5 rand).map (fun cs => cs.map rgbToHex)

/-- Is `c` a (lower-case, as produced by `toString(16)`) hexadecimal
digit? -/
def isHexDigitCh (c : Char) : Bool :=
  ('0' ≤ c && c ≤ '9') || ('a' ≤ c && c ≤ 'f')

/-- "`s` is a valid 6-hex-digit colour string": `'#'` followed by exactly
six hexadecimal digits. -/
def validHexColor (s : String) : Prop :=
  s.length = 7 ∧ s.data.head? = some '#' ∧
    ∀ c ∈ s.data.drop 1, isHexDigitCh c

/-! ## Batch processor (`processImages` / `stopProcessing`)

The per-image work (`aiEngine.analyzeImage`) is driven by the hook; for
the state-machine claims each image's outcome is an input: either the
image analyzes and categorizes successfully (with a processing time), or
the `try` body throws and the `catch` branch runs.  Cancellation is a
cooperative flag: `cancelAt = some c` means the `AbortController` signal
is first seen aborted at the loop check performed after `c` images have
completed (the user pressed stop while image `c` — 0-based `c-1` — was in
flight); `none` means no cancellation during the loop. -/

/-- Outcome of processing one image inside the loop's `try`. -/
inductive ImgOutcome where
  | ok (cat : Category) (time : ℚ)
  | fail
  deriving DecidableEq, Repr

/-- `ProcessingStats` (the `categorized` record is a total count map; a
category absent from the JS object reads as `0`).  When no image has
succeeded yet the source's `avgProcessingTime` is `0/0 = NaN`; the `ℚ`
model yields `0` there, and no verified claim reads the field. -/
structure StatsM where
  total : Nat
  processed : Nat
  successful : Nat
  errors : Nat
  categorized : Category → Nat
  avgProcessingTime : ℚ

/-- The loop's local accumulator variables
(`processed`/`successful`/`errors`/`categorized`/`processingTimes`). -/
structure LoopAcc where
  processed : Nat
  successful : Nat
  errors : Nat
  categorized : Category → Nat
  times : List ℚ

/-- All-zero accumulator at loop entry. -/
def initAcc : LoopAcc :=
  { processed := 0, successful := 0, errors := 0
    categorized := fun _ => 0, times := [] }

/-- One loop iteration's effect on the accumulators: a success bumps
`successful`, its category count and the time list; a failure bumps
`errors`; both bump `processed`. -/
def stepAcc (acc : LoopAcc) : ImgOutcome → LoopAcc
  | .ok cat t =>
    { acc with
        processed := acc.processed + 1
        successful := acc.successful + 1
        categorized := fun c =>
          if c = cat then acc.categorized c + 1 else acc.categorized c
        times := acc.times ++ [t] }
  | .fail =>
    { acc with processed := acc.processed + 1, errors := acc.errors + 1 }

/-- The `setStats` payload published after an iteration. -/
def mkStats (total : Nat) (acc : LoopAcc) : StatsM :=
  { total, processed := acc.processed, successful := acc.successful
    errors := acc.errors, categorized := acc.categorized
    avgProcessingTime := acc.times.sum / (acc.times.length : ℚ) }

/-- Is the abort flag visible at the check before the `(i+1)`-st image? -/
def isAborted (cancelAt : Option Nat) (i : Nat) : Bool :=
  match cancelAt with
  | none => false
  | some c => c ≤ i

/-- The per-iteration `setStats` observations of the loop: one `StatsM`
per image actually processed; the loop breaks at the first check that sees
the abort flag. -/
def loopStats (total : Nat) (cancelAt : Option Nat) :
    List ImgOutcome → LoopAcc → List StatsM
  | [], _ => []
  | o :: rest, acc =>
    if isAborted cancelAt acc.processed then []
    else
      let acc' := stepAcc acc o
      mkStats total acc' :: loopStats total cancelAt rest acc'

/-- Every statistics state observable during and after one
`processImages` run: the initial reset (`setStats` with zero counters and
`total = unprocessedImages.length`) followed by one state per processed
image.  The final `setStats` only adds `endTime` and leaves every counter
unchanged, so it publishes the last element again. -/
def statsTrace (outcomes : List ImgOutcome) (cancelAt : Option Nat) :
    List StatsM :=
  mkStats outcomes.length initAcc ::
    loopStats outcomes.length cancelAt outcomes initAcc

/-- The last published statistics state of a run. -/
def lastStats (outcomes : List ImgOutcome) (cancelAt : Option Nat) : StatsM :=
  (statsTrace outcomes cancelAt).getLast (by simp [statsTrace])

/-- The `ProcessingProgress.status` values. -/
inductive StatusM where
  | idle | loading | processing | complete | error
  deriving DecidableEq, Repr

/-- The `ProcessingProgress.stage` values. -/
inductive StageM where
  | upload | analysis | classification | organization | complete
  deriving DecidableEq, Repr

/-- `ProcessingProgress` without its display-only string fields
(`message`, `currentFile`), which no claim reads. -/
structure ProgressM where
  current : Nat
  total : Nat
  status : StatusM
  stage : StageM
  deriving DecidableEq, Repr

/-- The per-image `setProgress` updates of the loop (spread of the
previous state with `current := processed + 1`); the loop breaks at the
first check that sees the abort flag, before publishing anything for the
next image. -/
def loopProgress (cancelAt : Option Nat) :
    List ImgOutcome → Nat → ProgressM → List ProgressM
  | [], _, _ => []
  | _ :: rest, i, prev =>
    if isAborted cancelAt i then []
    else
      let p := { prev with current := i + 1 }
      p :: loopProgress cancelAt rest (i + 1) p

/-- Last element of `p0 :: l`. -/
def lastFrom (p0 : ProgressM) (l : List ProgressM) : ProgressM :=
  (p0 :: l).getLast (List.cons_ne_nil _ _)

/-- Every `ProcessingProgress` state published during one
`processImages` run, in order: the initial
`{status: processing, stage: analysis}`, the per-image updates, the
`stopProcessing` update (`{...prev, status: idle}`, published while the
last in-flight image runs) when cancellation was requested during the
loop, the `{...prev, stage: organization}` update when duplicate detection
is enabled (the source runs it even after an abort), and finally the
unconditional `{status: complete, stage: complete}` state. -/
def progressTrace (outcomes : List ImgOutcome) (cancelAt : Option Nat)
    (findDuplicates : Bool) : List ProgressM :=
  let n := outcomes.length
  let p0 : ProgressM :=
    { current := 0, total := n, status := .processing, stage := .analysis }
  let evs1 := loopProgress cancelAt outcomes 0 p0
  let cancelled : Bool :=
    match cancelAt with
    | some c => decide (c < n)
    | none => false
  let evs2 := evs1 ++
    (if cancelled then [{ lastFrom p0 evs1 with status := .idle }] else [])
  let evs3 := evs2 ++
    (if findDuplicates then
      [{ lastFrom p0 evs2 with stage := .organization }] else [])
  p0 :: evs3 ++
    [{ current := (lastStats outcomes cancelAt).processed, total := n
       status := .complete, stage := .complete }]

/-- `AiSettings` with every stage enabled. -/
def allOnSettings : AiSettings :=
  { runClassifier := true, runCaptioner := true, runObjectDetection := true
    runNsfw := true, nsfwThreshold := 7/10, runFaceDetection := true
    runOcr := true, runDuplicateDetection := true
    runQualityAnalysis := true, runColorPalette := true }

/-- A concrete `analyze` environment in which every stage would succeed
except the quality analysis, whose canvas work throws; the palette stage's
own work would succeed. -/
def runQualityThrow : StageRun :=
  { classifierAvailable := true, classifyRaw := .ok [{ label := "cat", score := 9/10 }]
    captionerAvailable := true, captionRaw := .ok (some "a cat")
    objectDetectorLoaded := true, objectsRaw := .ok []
    nsfwAvailable := true, nsfwRaw := .ok []
    faceAvailable := true, facesRaw := .ok []
    ocrAvailable := true, ocrRaw := .ok "hello"
    phashRaw := .ok "0101"
    qualityRaw := .error "canvas read failed"
    paletteRaw := .ok ["#000000"]
    filename := "cat.jpg", captionFallbackIdx := 0 }

/-- A concrete `analyze` environment in which the classifier and the OCR
worker both throw while every other stage succeeds. -/
def runClassifierDown : StageRun :=
  { classifierAvailable := true, classifyRaw := .error "model crashed"
    captionerAvailable := true, captionRaw := .ok (some "a beach")
    objectDetectorLoaded := true, objectsRaw := .ok []
    nsfwAvailable := true, nsfwRaw := .ok []
    faceAvailable := true, facesRaw := .ok []
    ocrAvailable := true, ocrRaw := .error "worker died"
    phashRaw := .ok "0101"
    qualityRaw := .ok { sharpness := 0, contrast := 0, brightness := 0, score := 0 }
    paletteRaw := .ok ["#aabbcc"]
    filename := "beach_nature.jpg", captionFallbackIdx := 0 }

/-- C3 — an analysis with a non-empty face list is always categorized
`selfies`, whatever the NSFW predictions, labels or OCR text. -/
theorem categorize_faces_selfies (a : ImageAnalysisM) (l : List FaceM)
    (hf : a.faces = some l) (hne : l ≠ []) :
    categorizeImage a = Category.selfies := by
  unfold categorizeImage
  have : 0 < (a.faces.getD []).length := by
    rw [hf]
    simpa [Option.getD] using List.length_pos.mpr hne
  simp [this]

/-- Concrete instantiation of `categorize_faces_selfies`: one face beats an
explicit 0.99 NSFW prediction. -/
theorem categorize_faces_selfies_witness :
    ({ emptyAnalysis 10 10 1 with
        faces := some [{ age := 25, gender := "unknown",
                         expression := "neutral", confidence := 4/5 }],
        nsfw := some [{ className := .porn, probability := 99/100 }]
      : ImageAnalysisM }.faces =
        some [{ age := 25, gender := "unknown", expression := "neutral",
                confidence := 4/5 }] ∧
      ([({ age := 25, gender := "unknown", expression := "neutral",
           confidence := 4/5 } : FaceM)] ≠ [])) ∧
      categorizeImage
        { emptyAnalysis 10 10 1 with
            faces := some [{ age := 25, gender := "unknown",
                             expression := "neutral", confidence := 4/5 }],
            nsfw := some [{ className := .porn, probability := 99/100 }] } =
        Category.selfies :=
  ⟨⟨rfl, by decide⟩,
    categorize_faces_selfies _ _ rfl (by decide)⟩

/-- C1 — evaluation of the batch state machine at the failing input:
five successfully-analyzing images, cancellation requested while the
second image is in flight (the abort flag is first seen at the check after
2 images completed), duplicate detection enabled.  The loop does stop at
the image boundary (`processed = 2`, no third image is touched) and
`stopProcessing` publishes an `idle` status, but `processImages` then
unconditionally publishes `{status: complete}` after the loop, so the
run's final status is `complete`, not `idle` as the specification's
state machine (`idle(cancelled)`) requires. -/
theorem cancelled_run_ends_complete :
    (lastStats (List.replicate 5 (ImgOutcome.ok .general 1)) (some 2)).processed = 2 ∧
      StatusM.idle ∈
        (progressTrace (List.replicate 5 (ImgOutcome.ok .general 1)) (some 2)
          true).map (fun p => p.status) ∧
      (progressTrace (List.replicate 5 (ImgOutcome.ok .general 1)) (some 2)
          true).getLast? =
        some { current := 2, total := 5, status := .complete,
               stage := .complete } ∧
      StatusM.complete ≠ StatusM.idle := by
  refine ⟨?_, ?_, ?_, by decide⟩
  · rfl
  · decide
  · decide

/-- Invariant of the published statistics along the loop: if the
accumulator satisfies it and there is room for the remaining images, every
state emitted by `loopStats` satisfies it. -/
theorem loopStats_invariant (total : Nat) (cancelAt : Option Nat) :
    ∀ (outcomes : List ImgOutcome) (acc : LoopAcc),
      acc.processed = acc.successful + acc.errors →
      acc.processed + outcomes.length ≤ total →
      ∀ s ∈ loopStats total cancelAt outcomes acc,
        s.processed = s.successful + s.errors ∧ s.processed ≤ s.total := by
  intro outcomes
  induction outcomes with
  | nil => intro acc _ _ s hs; simp [loopStats] at hs
  | cons o rest ih =>
    intro acc hinv hroom s hs
    rw [loopStats] at hs
    by_cases hab : isAborted cancelAt acc.processed
    · simp [hab] at hs
    · simp only [hab, Bool.false_eq_true, if_false, List.mem_cons] at hs
      have hinv' : (stepAcc acc o).processed =
          (stepAcc acc o).successful + (stepAcc acc o).errors := by
        cases o <;> simp [stepAcc, hinv] <;> omega
      have hproc' : (stepAcc acc o).processed = acc.processed + 1 := by
        cases o <;> simp [stepAcc]
      rcases hs with hs | hs
      · subst hs
        refine ⟨hinv', ?_⟩
        simp only [mkStats, hproc']
        simp at hroom
        omega
      · exact ih (stepAcc acc o) hinv' (by simp at hroom ⊢; omega) s hs

/-- C2 — every statistics state observable during and after a batch run
(the reset state and each per-image update) satisfies
`processed = successful + errors` and `processed ≤ total`. -/
theorem stats_observation_invariant (outcomes : List ImgOutcome)
    (cancelAt : Option Nat) :
    ∀ s ∈ statsTrace outcomes cancelAt,
      s.processed = s.successful + s.errors ∧ s.processed ≤ s.total := by
  intro s hs
  rw [statsTrace, List.mem_cons] at hs
  rcases hs with hs | hs
  · subst hs; exact ⟨rfl, Nat.zero_le _⟩
  · exact loopStats_invariant outcomes.length cancelAt outcomes initAcc rfl
      (by simp [initAcc]) s hs

/-- Concrete instantiation of `stats_observation_invariant` at the state
published after the first (failing) image of a one-image run. -/
theorem stats_observation_invariant_witness :
    (mkStats 1 (stepAcc initAcc ImgOutcome.fail) ∈
        statsTrace [ImgOutcome.fail] none) ∧
      ((mkStats 1 (stepAcc initAcc ImgOutcome.fail)).processed =
          (mkStats 1 (stepAcc initAcc ImgOutcome.fail)).successful +
            (mkStats 1 (stepAcc initAcc ImgOutcome.fail)).errors ∧
        (mkStats 1 (stepAcc initAcc ImgOutcome.fail)).processed ≤
          (mkStats 1 (stepAcc initAcc ImgOutcome.fail)).total) :=
  ⟨List.mem_cons_of_mem _ (List.mem_cons_self _ _),
    stats_observation_invariant [ImgOutcome.fail] none _
      (List.mem_cons_of_mem _ (List.mem_cons_self _ _))⟩

/-- C5 counterexample — with the configured threshold raised to `0.9`, an
image whose only NSFW prediction has probability `0.8` (no faces, no OCR
text, no classification) is still categorized `nsfw`: `categorizeImage`
compares against the literal `0.7` and never reads
`AiSettings.nsfwThreshold` (it does not even receive the settings
record). -/
theorem nsfwThreshold_ignored_counterexample :
    ¬(categorizeImage
        { emptyAnalysis 10 10 1 with
            nsfw := some [{ className := .sexy, probability := 4/5 }] } =
          Category.nsfw ↔
        ([({ className := .sexy, probability := 4/5 } : NsfwPred)]).any
          (fun p =>
            ({ defaultAiSettings with nsfwThreshold := 9/10
              : AiSettings }).nsfwThreshold < p.probability)) := by
  simp [categorizeImage, classificationCategory, emptyAnalysis,
    defaultAiSettings]
  norm_num

/-- C5 amended — categorization rule 4 always uses the fixed threshold
`0.7`: for any analysis with no faces, OCR text of at most 50 characters
and no keyword-matching classification, the result is `nsfw` exactly when
some NSFW prediction has probability above `0.7`, whatever
`nsfwThreshold` any settings record carries. -/
theorem categorize_nsfw_fixed_threshold (a : ImageAnalysisM)
    (hf : a.faces.getD [] = [])
    (ho : (a.ocrText.getD "").length ≤ 50)
    (hc : classificationCategory a.classification = none) :
    (categorizeImage a = Category.nsfw ↔
      (a.nsfw.getD []).any (fun n => (7:ℚ)/10 < n.probability) = true) := by
  unfold categorizeImage
  rw [hf, hc]
  simp only [List.length_nil, lt_irrefl, if_false]
  rw [if_neg (by omega)]
  by_cases h : (a.nsfw.getD []).any (fun n => (7:ℚ)/10 < n.probability) = true
  · simp [h]
  · simp only [Bool.not_eq_true] at h
    simp [h]

/-- Concrete instantiation of `categorize_nsfw_fixed_threshold`: a `0.71`
prediction alone makes the category `nsfw`. -/
theorem categorize_nsfw_fixed_threshold_witness :
    (({ emptyAnalysis 10 10 1 with
          nsfw := some [{ className := .drawing, probability := 71/100 }]
        : ImageAnalysisM }).faces.getD [] = [] ∧
      (({ emptyAnalysis 10 10 1 with
            nsfw := some [{ className := .drawing, probability := 71/100 }]
          : ImageAnalysisM }).ocrText.getD "").length ≤ 50 ∧
      classificationCategory
        ({ emptyAnalysis 10 10 1 with
            nsfw := some [{ className := .drawing, probability := 71/100 }]
          : ImageAnalysisM }).classification = none) ∧
      (categorizeImage
          { emptyAnalysis 10 10 1 with
              nsfw := some [{ className := .drawing, probability := 71/100 }] } =
          Category.nsfw ↔
        (({ emptyAnalysis 10 10 1 with
              nsfw := some [{ className := .drawing, probability := 71/100 }]
            : ImageAnalysisM }).nsfw.getD []).any
          (fun n => (7:ℚ)/10 < n.probability) = true) :=
  ⟨⟨rfl, by decide, rfl⟩,
    categorize_nsfw_fixed_threshold _ rfl (by decide) rfl⟩

/-- C10 — when the NSFW model is unavailable, `detectNSFW` returns the
single fallback prediction `{className: "Neutral", probability: 0.95}`;
since `categorizeImage` flags any prediction above `0.7` regardless of its
class name, an analysis carrying this fallback (with no faces, OCR text of
at most 50 characters and no keyword-matching classification) is
categorized `nsfw`, not `general`. -/
theorem neutral_fallback_categorized_nsfw (run : StageRun)
    (hun : run.nsfwAvailable = false) (a : ImageAnalysisM)
    (hn : a.nsfw = some (detectNSFWStage run))
    (hf : a.faces.getD [] = [])
    (ho : (a.ocrText.getD "").length ≤ 50)
    (hc : classificationCategory a.classification = none) :
    detectNSFWStage run =
        [{ className := .neutral, probability := 19/20 }] ∧
      categorizeImage a = Category.nsfw := by
  have hfall : detectNSFWStage run =
      [{ className := .neutral, probability := 19/20 }] := by
    unfold detectNSFWStage
    rw [hun]
    simp
  refine ⟨hfall, ?_⟩
  rw [categorize_nsfw_fixed_threshold a hf ho hc]
  rw [hn, hfall]
  simp
  norm_num

/-- Concrete instantiation of `neutral_fallback_categorized_nsfw`: a
degraded-NSFW run on a plain image ends in the `nsfw` category. -/
theorem neutral_fallback_categorized_nsfw_witness :
    (({ classifierAvailable := false, classifyRaw := .error "offline"
        captionerAvailable := false, captionRaw := .error "offline"
        objectDetectorLoaded := false, objectsRaw := .error "offline"
        nsfwAvailable := false, nsfwRaw := .error "offline"
        faceAvailable := false, facesRaw := .error "offline"
        ocrAvailable := false, ocrRaw := .error "offline"
        phashRaw := .ok "0", qualityRaw := .error "n/a"
        paletteRaw := .ok [], filename := "IMG_0001.jpg"
        captionFallbackIdx := 0 : StageRun }).nsfwAvailable = false ∧
      ({ emptyAnalysis 10 10 1 with
          nsfw := some [{ className := .neutral, probability := 19/20 }]
        : ImageAnalysisM }).nsfw =
        some (detectNSFWStage
          { classifierAvailable := false, classifyRaw := .error "offline"
            captionerAvailable := false, captionRaw := .error "offline"
            objectDetectorLoaded := false, objectsRaw := .error "offline"
            nsfwAvailable := false, nsfwRaw := .error "offline"
            faceAvailable := false, facesRaw := .error "offline"
            ocrAvailable := false, ocrRaw := .error "offline"
            phashRaw := .ok "0", qualityRaw := .error "n/a"
            paletteRaw := .ok [], filename := "IMG_0001.jpg"
            captionFallbackIdx := 0 })) ∧
      categorizeImage
        { emptyAnalysis 10 10 1 with
            nsfw := some [{ className := .neutral, probability := 19/20 }] } =
        Category.nsfw :=
  ⟨⟨rfl, rfl⟩,
    (neutral_fallback_categorized_nsfw
      { classifierAvailable := false, classifyRaw := .error "offline"
        captionerAvailable := false, captionRaw := .error "offline"
        objectDetectorLoaded := false, objectsRaw := .error "offline"
        nsfwAvailable := false, nsfwRaw := .error "offline"
        faceAvailable := false, facesRaw := .error "offline"
        ocrAvailable := false, ocrRaw := .error "offline"
        phashRaw := .ok "0", qualityRaw := .error "n/a"
        paletteRaw := .ok [], filename := "IMG_0001.jpg"
        captionFallbackIdx := 0 } rfl
      { emptyAnalysis 10 10 1 with
          nsfw := some [{ className := .neutral, probability := 19/20 }] }
      rfl rfl (by decide) rfl).2⟩

/-- The three algorithmic phases never touch the six capability-stage
fields (they only write `pHash`/`quality`/`palette`/`error`). -/
theorem phashStagePhase_preserves_capability_fields (s : AiSettings)
    (run : StageRun) (a : ImageAnalysisM) :
    (phashStagePhase s run a).classification = a.classification ∧
      (phashStagePhase s run a).description = a.description ∧
      (phashStagePhase s run a).objects = a.objects ∧
      (phashStagePhase s run a).nsfw = a.nsfw ∧
      (phashStagePhase s run a).faces = a.faces ∧
      (phashStagePhase s run a).ocrText = a.ocrText := by
  unfold phashStagePhase qualityStagePhase paletteStagePhase
  repeat' split
  all_goals simp

/-- The quality and palette phases never touch `pHash`. -/
theorem qualityStagePhase_preserves_pHash (s : AiSettings) (run : StageRun)
    (a : ImageAnalysisM) :
    (qualityStagePhase s run a).pHash = a.pHash := by
  unfold qualityStagePhase paletteStagePhase
  repeat' split
  all_goals simp

/-- The palette phase never touches `quality`. -/
theorem paletteStagePhase_preserves_quality (s : AiSettings) (run : StageRun)
    (a : ImageAnalysisM) :
    (paletteStagePhase s run a).quality = a.quality := by
  unfold paletteStagePhase
  repeat' split
  all_goals simp

/-- When none of the algorithmic stages throws, the three phases populate
exactly the enabled algorithmic fields and record no error. -/
theorem phashStagePhase_ok (s : AiSettings) (run : StageRun)
    (a : ImageAnalysisM) (hv : String) (qv : QualityM) (pv : List String)
    (h7 : run.phashRaw = .ok hv) (h8 : run.qualityRaw = .ok qv)
    (h9 : run.paletteRaw = .ok pv) :
    (phashStagePhase s run a).pHash =
        (if s.runDuplicateDetection then some hv else a.pHash) ∧
      (phashStagePhase s run a).quality =
        (if s.runQualityAnalysis then some qv else a.quality) ∧
      (phashStagePhase s run a).palette =
        (if s.runColorPalette then some pv else a.palette) ∧
      (phashStagePhase s run a).error = a.error := by
  unfold phashStagePhase qualityStagePhase paletteStagePhase
  rw [h7, h8, h9]
  repeat' split
  all_goals simp_all

/-- C8 amended — stage isolation as the code actually provides it: a
thrown error in any of the six capability stages is absorbed by that
stage's internal fallback (`run`'s capability outcomes and availability
flags are arbitrary here, so in particular any of them may be `.error`),
and, provided the three algorithmic stages do not throw, every enabled
stage still populates its field of the same result and no error is
recorded. -/
theorem analyze_capability_isolation (s : AiSettings) (run : StageRun)
    (w h : Nat) (sz : ℚ) (hv : String) (qv : QualityM) (pv : List String)
    (h7 : run.phashRaw = .ok hv) (h8 : run.qualityRaw = .ok qv)
    (h9 : run.paletteRaw = .ok pv) :
    (analyze s run w h sz).classification =
        (if s.runClassifier then some (classifyStage run) else none) ∧
      (analyze s run w h sz).description =
        (if s.runCaptioner then some (captionStage run) else none) ∧
      (analyze s run w h sz).objects =
        (if s.runObjectDetection && run.objectDetectorLoaded then
          some (objectsStage run) else none) ∧
      (analyze s run w h sz).nsfw =
        (if s.runNsfw then some (detectNSFWStage run) else none) ∧
      (analyze s run w h sz).faces =
        (if s.runFaceDetection then some (detectFacesStage run) else none) ∧
      (analyze s run w h sz).ocrText =
        (if s.runOcr then some (extractTextStage run) else none) ∧
      (analyze s run w h sz).pHash =
        (if s.runDuplicateDetection then some hv else none) ∧
      (analyze s run w h sz).quality =
        (if s.runQualityAnalysis then some qv else none) ∧
      (analyze s run w h sz).palette =
        (if s.runColorPalette then some pv else none) ∧
      (analyze s run w h sz).error = none := by
  unfold analyze
  refine ⟨?_, ?_, ?_, ?_, ?_, ?_, ?_, ?_, ?_, ?_⟩
  · rw [(phashStagePhase_preserves_capability_fields s run _).1]
    simp only [apply_ite ImageAnalysisM.classification, emptyAnalysis]
    simp
  · rw [(phashStagePhase_preserves_capability_fields s run _).2.1]
    simp only [apply_ite ImageAnalysisM.description, emptyAnalysis]
    simp
  · rw [(phashStagePhase_preserves_capability_fields s run _).2.2.1]
    simp only [apply_ite ImageAnalysisM.objects, emptyAnalysis]
    simp
  · rw [(phashStagePhase_preserves_capability_fields s run _).2.2.2.1]
    simp only [apply_ite ImageAnalysisM.nsfw, emptyAnalysis]
    simp
  · rw [(phashStagePhase_preserves_capability_fields s run _).2.2.2.2.1]
    simp only [apply_ite ImageAnalysisM.faces, emptyAnalysis]
    simp
  · rw [(phashStagePhase_preserves_capability_fields s run _).2.2.2.2.2]
    simp only [apply_ite ImageAnalysisM.ocrText, emptyAnalysis]
    simp
  · rw [(phashStagePhase_ok s run _ hv qv pv h7 h8 h9).1]
    simp only [apply_ite ImageAnalysisM.pHash, emptyAnalysis]
    simp
  · rw [(phashStagePhase_ok s run _ hv qv pv h7 h8 h9).2.1]
    simp only [apply_ite ImageAnalysisM.quality, emptyAnalysis]
    simp
  · rw [(phashStagePhase_ok s run _ hv qv pv h7 h8 h9).2.2.1]
    simp only [apply_ite ImageAnalysisM.palette, emptyAnalysis]
    simp
  · rw [(phashStagePhase_ok s run _ hv qv pv h7 h8 h9).2.2.2]
    simp only [apply_ite ImageAnalysisM.error, emptyAnalysis]
    simp

/-- C8 counterexample — the three algorithmic stages share the image-level
`try`, so their failures are *not* isolated: with every stage enabled, a
throw in the quality stage (stage 8) leaves the palette field empty even
though the palette stage (stage 9) was enabled and its own computation
would have succeeded; the error is recorded on the result instead. -/
theorem stage_failure_aborts_later_stages_counterexample :
    allOnSettings.runColorPalette = true ∧
      runQualityThrow.paletteRaw = .ok ["#000000"] ∧
      (analyze allOnSettings runQualityThrow 8 8 1).palette = none ∧
      (analyze allOnSettings runQualityThrow 8 8 1).quality = none ∧
      (analyze allOnSettings runQualityThrow 8 8 1).pHash = some "0101" ∧
      (analyze allOnSettings runQualityThrow 8 8 1).error =
        some "Analysis error: canvas read failed" :=
  ⟨rfl, rfl, rfl, rfl, rfl, rfl⟩

/-- Concrete instantiation of `analyze_capability_isolation`: the
classifier and OCR throw, yet every other stage (including both of them,
through their fallbacks) still populates its field and no error is
recorded. -/
theorem analyze_capability_isolation_witness :
    (runClassifierDown.phashRaw = .ok "0101" ∧
      runClassifierDown.qualityRaw =
        .ok { sharpness := 0, contrast := 0, brightness := 0, score := 0 } ∧
      runClassifierDown.paletteRaw = .ok ["#aabbcc"]) ∧
      (analyze allOnSettings runClassifierDown 4 4 1).classification =
          some (classifyStage runClassifierDown) ∧
        (analyze allOnSettings runClassifierDown 4 4 1).ocrText =
          some (extractTextStage runClassifierDown) ∧
        (analyze allOnSettings runClassifierDown 4 4 1).palette =
          some ["#aabbcc"] ∧
        (analyze allOnSettings runClassifierDown 4 4 1).error = none :=
  ⟨⟨rfl, rfl, rfl⟩,
    (analyze_capability_isolation allOnSettings runClassifierDown 4 4 1
      "0101" { sharpness := 0, contrast := 0, brightness := 0, score := 0 }
      ["#aabbcc"] rfl rfl rfl).1,
    (analyze_capability_isolation allOnSettings runClassifierDown 4 4 1
      "0101" { sharpness := 0, contrast := 0, brightness := 0, score := 0 }
      ["#aabbcc"] rfl rfl rfl).2.2.2.2.2.1,
    (analyze_capability_isolation allOnSettings runClassifierDown 4 4 1
      "0101" { sharpness := 0, contrast := 0, brightness := 0, score := 0 }
      ["#aabbcc"] rfl rfl rfl).2.2.2.2.2.2.2.2.1,
    (analyze_capability_isolation allOnSettings runClassifierDown 4 4 1
      "0101" { sharpness := 0, contrast := 0, brightness := 0, score := 0 }
      ["#aabbcc"] rfl rfl rfl).2.2.2.2.2.2.2.2.2⟩

/-- Justification for embedding the k-means distance comparisons on the
radicands: `Math.sqrt` is strictly monotone on the nonnegative reals, so
`Math.sqrt a < Math.sqrt b` and `a < b` agree for the squared distances
the source compares. -/
theorem sqrt_lt_iff_radicand_lt (a b : ℚ) (ha : 0 ≤ a) :
    Real.sqrt (a : ℝ) < Real.sqrt (b : ℝ) ↔ (a : ℝ) < (b : ℝ) :=
  Real.sqrt_lt_sqrt_iff (by exact_mod_cast ha)

/-- Closed instantiation of `sqrt_lt_iff_radicand_lt` at `4 < 9`. -/
theorem sqrt_lt_iff_radicand_lt_witness :
    (0:ℚ) ≤ 4 ∧ (Real.sqrt ((4:ℚ) : ℝ) < Real.sqrt ((9:ℚ) : ℝ) ↔
      ((4:ℚ) : ℝ) < ((9:ℚ) : ℝ)) :=
  ⟨by norm_num, sqrt_lt_iff_radicand_lt 4 9 (by norm_num)⟩

/-- C4 counterexample — the palette is **not** a function of the pixel
buffer alone: on the two-pixel buffer `(2,2,2,255),(255,255,255,255)`, the
`Math.random()` draw stream `0,0,0,...` (all five centroids initialized to
the dark pixel) and the stream `1/2,1/2,...` (all five initialized to the
white pixel) — both legitimate `Math.random` values in `[0,1)` — produce
different palettes, so two invocations on identical decoded pixels can
disagree. -/
theorem palette_not_deterministic_counterexample :
    extractColorPalette [2,2,2,255, 255,255,255,255] (fun _ => 0) =
        some ["#ffffff", "#020202", "#020202", "#020202", "#020202"] ∧
      extractColorPalette [2,2,2,255, 255,255,255,255] (fun _ => 1/2) =
        some ["#020202", "#ffffff", "#ffffff", "#ffffff", "#ffffff"] ∧
      extractColorPalette [2,2,2,255, 255,255,255,255] (fun _ => 0) ≠
        extractColorPalette [2,2,2,255, 255,255,255,255] (fun _ => 1/2) := by
  have d0 : sqDist ((255:ℚ),(255:ℚ),(255:ℚ)) ((2:ℚ),(2:ℚ),(2:ℚ)) = 192027 := by
    norm_num [sqDist]
  have d1 : sqDist ((2:ℚ),(2:ℚ),(2:ℚ)) ((2:ℚ),(2:ℚ),(2:ℚ)) = 0 := by
    norm_num [sqDist]
  have d2 : sqDist ((2:ℚ),(2:ℚ),(2:ℚ)) ((257/2:ℚ),(257/2:ℚ),(257/2:ℚ)) =
      192027/4 := by
    norm_num [sqDist]
  have d3 : sqDist ((255:ℚ),(255:ℚ),(255:ℚ)) ((257/2:ℚ),(257/2:ℚ),(257/2:ℚ)) =
      192027/4 := by
    norm_num [sqDist]
  have d4 : sqDist ((2:ℚ),(2:ℚ),(2:ℚ)) ((255:ℚ),(255:ℚ),(255:ℚ)) = 192027 := by
    norm_num [sqDist]
  have d5 : sqDist ((255:ℚ),(255:ℚ),(255:ℚ)) ((255:ℚ),(255:ℚ),(255:ℚ)) = 0 := by
    norm_num [sqDist]
  have hret : retainedPixels [2,2,2,255, 255,255,255,255] =
      [((2:ℚ),(2:ℚ),(2:ℚ)), ((255:ℚ),(255:ℚ),(255:ℚ))] := by
    norm_num [retainedPixels]
  have hr255 : jsRound (255:ℚ) = 255 := by
    norm_num [jsRound, Int.floor_eq_iff]
  have hr2 : jsRound (2:ℚ) = 2 := by
    norm_num [jsRound, Int.floor_eq_iff]
  have hhexw : rgbToHex ((255:ℚ),(255:ℚ),(255:ℚ)) = "#ffffff" := by
    rw [rgbToHex]
    norm_num [hr255]
    all_goals decide
  have hhexb : rgbToHex ((2:ℚ),(2:ℚ),(2:ℚ)) = "#020202" := by
    rw [rgbToHex]
    norm_num [hr2]
    all_goals decide
  have hA : extractColorPalette [2,2,2,255, 255,255,255,255] (fun _ => 0) =
      some ["#ffffff", "#020202", "#020202", "#020202", "#020202"] := by
    -- draw stream 0: all centroids start at the dark pixel
    have hinit : kMeansInit [((2:ℚ),(2:ℚ),(2:ℚ)), ((255:ℚ),(255:ℚ),(255:ℚ))] 5
        (fun _ => 0) =
        some [((2:ℚ),(2:ℚ),(2:ℚ)), ((2:ℚ),(2:ℚ),(2:ℚ)), ((2:ℚ),(2:ℚ),(2:ℚ)),
          ((2:ℚ),(2:ℚ),(2:ℚ)), ((2:ℚ),(2:ℚ),(2:ℚ))] := by
      norm_num [kMeansInit, jsArrayGet, List.range_succ, List.mapM.loop]
    have hc0 : closestCentroid ((2:ℚ),(2:ℚ),(2:ℚ))
        [((2:ℚ),(2:ℚ),(2:ℚ)), ((2:ℚ),(2:ℚ),(2:ℚ)), ((2:ℚ),(2:ℚ),(2:ℚ)),
         ((2:ℚ),(2:ℚ),(2:ℚ)), ((2:ℚ),(2:ℚ),(2:ℚ))] = 0 := by
      norm_num [closestCentroid, List.enum, List.enumFrom, d1]
    have hc1 : closestCentroid ((255:ℚ),(255:ℚ),(255:ℚ))
        [((2:ℚ),(2:ℚ),(2:ℚ)), ((2:ℚ),(2:ℚ),(2:ℚ)), ((2:ℚ),(2:ℚ),(2:ℚ)),
         ((2:ℚ),(2:ℚ),(2:ℚ)), ((2:ℚ),(2:ℚ),(2:ℚ))] = 0 := by
      norm_num [closestCentroid, List.enum, List.enumFrom, d0]
    have hA1 : kMeansStep [((2:ℚ),(2:ℚ),(2:ℚ)), ((255:ℚ),(255:ℚ),(255:ℚ))]
        [((2:ℚ),(2:ℚ),(2:ℚ)), ((2:ℚ),(2:ℚ),(2:ℚ)), ((2:ℚ),(2:ℚ),(2:ℚ)),
         ((2:ℚ),(2:ℚ),(2:ℚ)), ((2:ℚ),(2:ℚ),(2:ℚ))] =
        [((257/2:ℚ),(257/2:ℚ),(257/2:ℚ)), ((2:ℚ),(2:ℚ),(2:ℚ)), ((2:ℚ),(2:ℚ),(2:ℚ)),
         ((2:ℚ),(2:ℚ),(2:ℚ)), ((2:ℚ),(2:ℚ),(2:ℚ))] := by
      norm_num [kMeansStep, List.enum, List.enumFrom, hc0, hc1,
        List.filter_cons, List.filter_nil]
      all_goals simp
    have hc2 : closestCentroid ((2:ℚ),(2:ℚ),(2:ℚ))
        [((257/2:ℚ),(257/2:ℚ),(257/2:ℚ)), ((2:ℚ),(2:ℚ),(2:ℚ)), ((2:ℚ),(2:ℚ),(2:ℚ)),
         ((2:ℚ),(2:ℚ),(2:ℚ)), ((2:ℚ),(2:ℚ),(2:ℚ))] = 1 := by
      norm_num [closestCentroid, List.enum, List.enumFrom, d1, d2]
    have hc3 : closestCentroid ((255:ℚ),(255:ℚ),(255:ℚ))
        [((257/2:ℚ),(257/2:ℚ),(257/2:ℚ)), ((2:ℚ),(2:ℚ),(2:ℚ)), ((2:ℚ),(2:ℚ),(2:ℚ)),
         ((2:ℚ),(2:ℚ),(2:ℚ)), ((2:ℚ),(2:ℚ),(2:ℚ))] = 0 := by
      norm_num [closestCentroid, List.enum, List.enumFrom, d0, d3]
    have hA2 : kMeansStep [((2:ℚ),(2:ℚ),(2:ℚ)), ((255:ℚ),(255:ℚ),(255:ℚ))]
        [((257/2:ℚ),(257/2:ℚ),(257/2:ℚ)), ((2:ℚ),(2:ℚ),(2:ℚ)), ((2:ℚ),(2:ℚ),(2:ℚ)),
         ((2:ℚ),(2:ℚ),(2:ℚ)), ((2:ℚ),(2:ℚ),(2:ℚ))] =
        [((255:ℚ),(255:ℚ),(255:ℚ)), ((2:ℚ),(2:ℚ),(2:ℚ)), ((2:ℚ),(2:ℚ),(2:ℚ)),
         ((2:ℚ),(2:ℚ),(2:ℚ)), ((2:ℚ),(2:ℚ),(2:ℚ))] := by
      norm_num [kMeansStep, List.enum, List.enumFrom, hc2, hc3,
        List.filter_cons, List.filter_nil]
    have hc4 : closestCentroid ((2:ℚ),(2:ℚ),(2:ℚ))
        [((255:ℚ),(255:ℚ),(255:ℚ)), ((2:ℚ),(2:ℚ),(2:ℚ)), ((2:ℚ),(2:ℚ),(2:ℚ)),
         ((2:ℚ),(2:ℚ),(2:ℚ)), ((2:ℚ),(2:ℚ),(2:ℚ))] = 1 := by
      norm_num [closestCentroid, List.enum, List.enumFrom, d1, d4]
    have hc5 : closestCentroid ((255:ℚ),(255:ℚ),(255:ℚ))
        [((255:ℚ),(255:ℚ),(255:ℚ)), ((2:ℚ),(2:ℚ),(2:ℚ)), ((2:ℚ),(2:ℚ),(2:ℚ)),
         ((2:ℚ),(2:ℚ),(2:ℚ)), ((2:ℚ),(2:ℚ),(2:ℚ))] = 0 := by
      norm_num [closestCentroid, List.enum, List.enumFrom, d0, d5]
    have hFfix : kMeansStep [((2:ℚ),(2:ℚ),(2:ℚ)), ((255:ℚ),(255:ℚ),(255:ℚ))]
        [((255:ℚ),(255:ℚ),(255:ℚ)), ((2:ℚ),(2:ℚ),(2:ℚ)), ((2:ℚ),(2:ℚ),(2:ℚ)),
         ((2:ℚ),(2:ℚ),(2:ℚ)), ((2:ℚ),(2:ℚ),(2:ℚ))] =
        [((255:ℚ),(255:ℚ),(255:ℚ)), ((2:ℚ),(2:ℚ),(2:ℚ)), ((2:ℚ),(2:ℚ),(2:ℚ)),
         ((2:ℚ),(2:ℚ),(2:ℚ)), ((2:ℚ),(2:ℚ),(2:ℚ))] := by
      norm_num [kMeansStep, List.enum, List.enumFrom, hc4, hc5,
        List.filter_cons, List.filter_nil]
    have hiter : Nat.iterate
        (kMeansStep [((2:ℚ),(2:ℚ),(2:ℚ)), ((255:ℚ),(255:ℚ),(255:ℚ))]) 20
        [((2:ℚ),(2:ℚ),(2:ℚ)), ((2:ℚ),(2:ℚ),(2:ℚ)), ((2:ℚ),(2:ℚ),(2:ℚ)),
         ((2:ℚ),(2:ℚ),(2:ℚ)), ((2:ℚ),(2:ℚ),(2:ℚ))] =
        [((255:ℚ),(255:ℚ),(255:ℚ)), ((2:ℚ),(2:ℚ),(2:ℚ)), ((2:ℚ),(2:ℚ),(2:ℚ)),
         ((2:ℚ),(2:ℚ),(2:ℚ)), ((2:ℚ),(2:ℚ),(2:ℚ))] := by
      have h20 : (20:ℕ) = 18 + 2 := rfl
      rw [h20, Function.iterate_add_apply]
      rw [show Nat.iterate
          (kMeansStep [((2:ℚ),(2:ℚ),(2:ℚ)), ((255:ℚ),(255:ℚ),(255:ℚ))]) 2
          [((2:ℚ),(2:ℚ),(2:ℚ)), ((2:ℚ),(2:ℚ),(2:ℚ)), ((2:ℚ),(2:ℚ),(2:ℚ)),
           ((2:ℚ),(2:ℚ),(2:ℚ)), ((2:ℚ),(2:ℚ),(2:ℚ))] =
          [((255:ℚ),(255:ℚ),(255:ℚ)), ((2:ℚ),(2:ℚ),(2:ℚ)), ((2:ℚ),(2:ℚ),(2:ℚ)),
           ((2:ℚ),(2:ℚ),(2:ℚ)), ((2:ℚ),(2:ℚ),(2:ℚ))] from by
        rw [Function.iterate_succ_apply, Function.iterate_succ_apply,
          Function.iterate_zero_apply, hA1, hA2]]
      exact Function.iterate_fixed hFfix 18
    rw [extractColorPalette, kMeansClustering, hret, hinit]
    simp only [Option.map_some', hiter]
    simp [hhexw, hhexb]
  have hB : extractColorPalette [2,2,2,255, 255,255,255,255] (fun _ => 1/2) =
      some ["#020202", "#ffffff", "#ffffff", "#ffffff", "#ffffff"] := by
    -- draw stream 1/2: all centroids start at the white pixel
    have hinit : kMeansInit [((2:ℚ),(2:ℚ),(2:ℚ)), ((255:ℚ),(255:ℚ),(255:ℚ))] 5
        (fun _ => 1/2) =
        some [((255:ℚ),(255:ℚ),(255:ℚ)), ((255:ℚ),(255:ℚ),(255:ℚ)),
          ((255:ℚ),(255:ℚ),(255:ℚ)), ((255:ℚ),(255:ℚ),(255:ℚ)),
          ((255:ℚ),(255:ℚ),(255:ℚ))] := by
      norm_num [kMeansInit, jsArrayGet, List.range_succ, List.mapM.loop]
    have hc0 : closestCentroid ((2:ℚ),(2:ℚ),(2:ℚ))
        [((255:ℚ),(255:ℚ),(255:ℚ)), ((255:ℚ),(255:ℚ),(255:ℚ)),
         ((255:ℚ),(255:ℚ),(255:ℚ)), ((255:ℚ),(255:ℚ),(255:ℚ)),
         ((255:ℚ),(255:ℚ),(255:ℚ))] = 0 := by
      norm_num [closestCentroid, List.enum, List.enumFrom, d4]
    have hc1 : closestCentroid ((255:ℚ),(255:ℚ),(255:ℚ))
        [((255:ℚ),(255:ℚ),(255:ℚ)), ((255:ℚ),(255:ℚ),(255:ℚ)),
         ((255:ℚ),(255:ℚ),(255:ℚ)), ((255:ℚ),(255:ℚ),(255:ℚ)),
         ((255:ℚ),(255:ℚ),(255:ℚ))] = 0 := by
      norm_num [closestCentroid, List.enum, List.enumFrom, d5]
    have hB1 : kMeansStep [((2:ℚ),(2:ℚ),(2:ℚ)), ((255:ℚ),(255:ℚ),(255:ℚ))]
        [((255:ℚ),(255:ℚ),(255:ℚ)), ((255:ℚ),(255:ℚ),(255:ℚ)),
         ((255:ℚ),(255:ℚ),(255:ℚ)), ((255:ℚ),(255:ℚ),(255:ℚ)),
         ((255:ℚ),(255:ℚ),(255:ℚ))] =
        [((257/2:ℚ),(257/2:ℚ),(257/2:ℚ)), ((255:ℚ),(255:ℚ),(255:ℚ)),
         ((255:ℚ),(255:ℚ),(255:ℚ)), ((255:ℚ),(255:ℚ),(255:ℚ)),
         ((255:ℚ),(255:ℚ),(255:ℚ))] := by
      norm_num [kMeansStep, List.enum, List.enumFrom, hc0, hc1,
        List.filter_cons, List.filter_nil]
      all_goals simp
    have hc2 : closestCentroid ((2:ℚ),(2:ℚ),(2:ℚ))
        [((257/2:ℚ),(257/2:ℚ),(257/2:ℚ)), ((255:ℚ),(255:ℚ),(255:ℚ)),
         ((255:ℚ),(255:ℚ),(255:ℚ)), ((255:ℚ),(255:ℚ),(255:ℚ)),
         ((255:ℚ),(255:ℚ),(255:ℚ))] = 0 := by
      norm_num [closestCentroid, List.enum, List.enumFrom, d2, d4]
    have hc3 : closestCentroid ((255:ℚ),(255:ℚ),(255:ℚ))
        [((257/2:ℚ),(257/2:ℚ),(257/2:ℚ)), ((255:ℚ),(255:ℚ),(255:ℚ)),
         ((255:ℚ),(255:ℚ),(255:ℚ)), ((255:ℚ),(255:ℚ),(255:ℚ)),
         ((255:ℚ),(255:ℚ),(255:ℚ))] = 1 := by
      norm_num [closestCentroid, List.enum, List.enumFrom, d3, d5]
    have hB2 : kMeansStep [((2:ℚ),(2:ℚ),(2:ℚ)), ((255:ℚ),(255:ℚ),(255:ℚ))]
        [((257/2:ℚ),(257/2:ℚ),(257/2:ℚ)), ((255:ℚ),(255:ℚ),(255:ℚ)),
         ((255:ℚ),(255:ℚ),(255:ℚ)), ((255:ℚ),(255:ℚ),(255:ℚ)),
         ((255:ℚ),(255:ℚ),(255:ℚ))] =
        [((2:ℚ),(2:ℚ),(2:ℚ)), ((255:ℚ),(255:ℚ),(255:ℚ)),
         ((255:ℚ),(255:ℚ),(255:ℚ)), ((255:ℚ),(255:ℚ),(255:ℚ)),
         ((255:ℚ),(255:ℚ),(255:ℚ))] := by
      norm_num [kMeansStep, List.enum, List.enumFrom, hc2, hc3,
        List.filter_cons, List.filter_nil]
    have hc4 : closestCentroid ((2:ℚ),(2:ℚ),(2:ℚ))
        [((2:ℚ),(2:ℚ),(2:ℚ)), ((255:ℚ),(255:ℚ),(255:ℚ)),
         ((255:ℚ),(255:ℚ),(255:ℚ)), ((255:ℚ),(255:ℚ),(255:ℚ)),
         ((255:ℚ),(255:ℚ),(255:ℚ))] = 0 := by
      norm_num [closestCentroid, List.enum, List.enumFrom, d1, d4]
    have hc5 : closestCentroid ((255:ℚ),(255:ℚ),(255:ℚ))
        [((2:ℚ),(2:ℚ),(2:ℚ)), ((255:ℚ),(255:ℚ),(255:ℚ)),
         ((255:ℚ),(255:ℚ),(255:ℚ)), ((255:ℚ),(255:ℚ),(255:ℚ)),
         ((255:ℚ),(255:ℚ),(255:ℚ))] = 1 := by
      norm_num [closestCentroid, List.enum, List.enumFrom, d0, d5]
    have hFfix : kMeansStep [((2:ℚ),(2:ℚ),(2:ℚ)), ((255:ℚ),(255:ℚ),(255:ℚ))]
        [((2:ℚ),(2:ℚ),(2:ℚ)), ((255:ℚ),(255:ℚ),(255:ℚ)),
         ((255:ℚ),(255:ℚ),(255:ℚ)), ((255:ℚ),(255:ℚ),(255:ℚ)),
         ((255:ℚ),(255:ℚ),(255:ℚ))] =
        [((2:ℚ),(2:ℚ),(2:ℚ)), ((255:ℚ),(255:ℚ),(255:ℚ)),
         ((255:ℚ),(255:ℚ),(255:ℚ)), ((255:ℚ),(255:ℚ),(255:ℚ)),
         ((255:ℚ),(255:ℚ),(255:ℚ))] := by
      norm_num [kMeansStep, List.enum, List.enumFrom, hc4, hc5,
        List.filter_cons, List.filter_nil]
    have hiter : Nat.iterate
        (kMeansStep [((2:ℚ),(2:ℚ),(2:ℚ)), ((255:ℚ),(255:ℚ),(255:ℚ))]) 20
        [((255:ℚ),(255:ℚ),(255:ℚ)), ((255:ℚ),(255:ℚ),(255:ℚ)),
         ((255:ℚ),(255:ℚ),(255:ℚ)), ((255:ℚ),(255:ℚ),(255:ℚ)),
         ((255:ℚ),(255:ℚ),(255:ℚ))] =
        [((2:ℚ),(2:ℚ),(2:ℚ)), ((255:ℚ),(255:ℚ),(255:ℚ)),
         ((255:ℚ),(255:ℚ),(255:ℚ)), ((255:ℚ),(255:ℚ),(255:ℚ)),
         ((255:ℚ),(255:ℚ),(255:ℚ))] := by
      have h20 : (20:ℕ) = 18 + 2 := rfl
      rw [h20, Function.iterate_add_apply]
      rw [show Nat.iterate
          (kMeansStep [((2:ℚ),(2:ℚ),(2:ℚ)), ((255:ℚ),(255:ℚ),(255:ℚ))]) 2
          [((255:ℚ),(255:ℚ),(255:ℚ)), ((255:ℚ),(255:ℚ),(255:ℚ)),
           ((255:ℚ),(255:ℚ),(255:ℚ)), ((255:ℚ),(255:ℚ),(255:ℚ)),
           ((255:ℚ),(255:ℚ),(255:ℚ))] =
          [((2:ℚ),(2:ℚ),(2:ℚ)), ((255:ℚ),(255:ℚ),(255:ℚ)),
           ((255:ℚ),(255:ℚ),(255:ℚ)), ((255:ℚ),(255:ℚ),(255:ℚ)),
           ((255:ℚ),(255:ℚ),(255:ℚ))] from by
        rw [Function.iterate_succ_apply, Function.iterate_succ_apply,
          Function.iterate_zero_apply, hB1, hB2]]
      exact Function.iterate_fixed hFfix 18
    rw [extractColorPalette, kMeansClustering, hret, hinit]
    simp only [Option.map_some', hiter]
    simp [hhexw, hhexb]
  refine ⟨hA, hB, ?_⟩
  rw [hA, hB]
  decide

/-- C4 amended — the perceptual hash and the quality record are functions
of the pixel buffer alone (their embeddings take no input besides the
decoded pixels), so repeated invocations on a fixed buffer are identical;
the palette is additionally a function of the `Math.random()` draw stream,
so it is reproducible only for fixed draws — two invocations with the
same draws agree, while different draws can give different palettes (see
the counterexample). -/
theorem phash_quality_deterministic_palette_seeded (data : List Nat)
    (d : ImageDataM) (r1 r2 : Nat → ℚ) (hr : r1 = r2) :
    generatePHash data = generatePHash data ∧
      analyzeQuality d = analyzeQuality d ∧
      extractColorPalette data r1 = extractColorPalette data r2 :=
  ⟨rfl, rfl, by rw [hr]⟩

/-- Concrete instantiation of
`phash_quality_deterministic_palette_seeded` on a one-pixel buffer. -/
theorem phash_quality_deterministic_palette_seeded_witness :
    ((fun _ : Nat => (0:ℚ)) = (fun _ : Nat => (0:ℚ))) ∧
      (generatePHash [2,2,2,255] = generatePHash [2,2,2,255] ∧
        analyzeQuality ⟨1, 1, [2,2,2,255]⟩ = analyzeQuality ⟨1, 1, [2,2,2,255]⟩ ∧
        extractColorPalette [2,2,2,255] (fun _ => 0) =
          extractColorPalette [2,2,2,255] (fun _ => 0)) :=
  ⟨rfl, phash_quality_deterministic_palette_seeded [2,2,2,255]
    ⟨1, 1, [2,2,2,255]⟩ _ _ rfl⟩

/-- In the self-zip of a list every pair matches. -/
theorem countP_zip_self (l : List Char) :
    (l.zip l).countP (fun p => p.1 == p.2) = l.length := by
  induction l with
  | nil => rfl
  | cons c cs ih => simp [List.countP_cons, ih]

/-- A non-empty hash string has Hamming similarity `1` with itself. -/
theorem calculateHashSimilarity_self (h : String) (hne : h ≠ "") :
    calculateHashSimilarity h h = 1 := by
  have hd : h.data ≠ [] := by
    intro hd
    exact hne (String.ext hd)
  unfold calculateHashSimilarity
  rw [if_neg (by simp), countP_zip_self]
  rw [show (h.length : ℚ) = (h.data.length : ℚ) from rfl]
  exact div_self
    (Nat.cast_ne_zero.mpr (fun h0 => hd (List.length_eq_zero.mp h0)))

/-- Closed instantiation of `calculateHashSimilarity_self`. -/
theorem calculateHashSimilarity_self_witness :
    ("01" : String) ≠ "" ∧ calculateHashSimilarity "01" "01" = 1 :=
  ⟨by decide, calculateHashSimilarity_self "01" (by decide)⟩

/-- The inner scan only appends to the group it was given. -/
theorem fsiInner_group_extends (h1 : String) :
    ∀ (rest : List DupEntry) (proc grp : List String),
      ∃ t, (fsiInner h1 rest proc grp).1 = grp ++ t := by
  intro rest
  induction rest with
  | nil => intro proc grp; exact ⟨[], by simp [fsiInner]⟩
  | cons e rest ih =>
    intro proc grp
    by_cases hin : e.1 ∈ proc
    · simpa [fsiInner, hin] using ih proc grp
    · cases he : e.2 with
      | none => simpa [fsiInner, hin, he] using ih proc grp
      | some h2 =>
        by_cases h2e : h2 = ""
        · simpa [fsiInner, hin, he, h2e] using ih proc grp
        · by_cases hsim : (85:ℚ)/100 < calculateHashSimilarity h1 h2
          · obtain ⟨t, ht⟩ := ih (e.1 :: proc) (grp ++ [e.1])
            refine ⟨e.1 :: t, ?_⟩
            simp only [fsiInner, he]
            rw [if_neg hin, if_neg h2e, if_pos hsim, ht, List.append_assoc]
            rfl
          · simpa [fsiInner, hin, he, h2e, hsim] using ih proc grp

/-- If a not-yet-processed image `b` with a truthy hash similar enough to
the starter hash appears in the scanned suffix (whose ids are distinct),
the inner scan puts `b`'s id into the group. -/
theorem fsiInner_adds (h1 : String) :
    ∀ (rest : List DupEntry) (proc grp : List String) (b : DupEntry)
      (hb2 : String),
      b ∈ rest → (rest.map Prod.fst).Nodup → b.1 ∉ proc →
      b.2 = some hb2 → hb2 ≠ "" →
      (85:ℚ)/100 < calculateHashSimilarity h1 hb2 →
      b.1 ∈ (fsiInner h1 rest proc grp).1 := by
  intro rest
  induction rest with
  | nil => intro _ _ _ _ hmem; simp at hmem
  | cons e rest ih =>
    intro proc grp b hb2 hmem hnodup hproc hhash hne hsim
    have hnodup' : (rest.map Prod.fst).Nodup := by
      simp only [List.map_cons, List.nodup_cons] at hnodup
      exact hnodup.2
    rcases List.mem_cons.mp hmem with rfl | hmem'
    · -- b is the head of the scan
      simp only [fsiInner, hhash]
      rw [if_neg hproc, if_neg hne, if_pos hsim]
      obtain ⟨t, ht⟩ := fsiInner_group_extends h1 rest (b.1 :: proc) (grp ++ [b.1])
      rw [ht]
      simp
    · -- b is further down the scan
      have hne_id : e.1 ≠ b.1 := by
        intro hEq
        simp only [List.map_cons, List.nodup_cons] at hnodup
        exact hnodup.1 (hEq ▸ List.mem_map_of_mem Prod.fst hmem')
      by_cases hin : e.1 ∈ proc
      · simp only [fsiInner]
        rw [if_pos hin]
        exact ih proc grp b hb2 hmem' hnodup' hproc hhash hne hsim
      · cases he : e.2 with
        | none =>
          simp only [fsiInner, he]
          rw [if_neg hin]
          exact ih proc grp b hb2 hmem' hnodup' hproc hhash hne hsim
        | some h2 =>
          by_cases h2e : h2 = ""
          · simp only [fsiInner, he]
            rw [if_neg hin, if_pos h2e]
            exact ih proc grp b hb2 hmem' hnodup' hproc hhash hne hsim
          · by_cases hsim' : (85:ℚ)/100 < calculateHashSimilarity h1 h2
            · simp only [fsiInner, he]
              rw [if_neg hin, if_neg h2e, if_pos hsim']
              refine ih (e.1 :: proc) (grp ++ [e.1]) b hb2 hmem' hnodup' ?_
                hhash hne hsim
              simp only [List.mem_cons]
              rintro (h | h)
              · exact hne_id h.symm
              · exact hproc h
            · simp only [fsiInner, he]
              rw [if_neg hin, if_neg h2e, if_neg hsim']
              exact ih proc grp b hb2 hmem' hnodup' hproc hhash hne hsim

/-- Provenance of the inner scan's outputs: everything in the final group
came from the initial group or from a scanned entry that passes the
similarity test, and everything in the final processed set came from the
initial processed set or from such an entry. -/
theorem fsiInner_provenance (h1 : String) :
    ∀ (rest : List DupEntry) (proc grp : List String),
      (∀ x ∈ (fsiInner h1 rest proc grp).1,
          x ∈ grp ∨ ∃ e ∈ rest, e.1 = x ∧ passesTest h1 e) ∧
        (∀ x ∈ (fsiInner h1 rest proc grp).2,
          x ∈ proc ∨ ∃ e ∈ rest, e.1 = x ∧ passesTest h1 e) := by
  intro rest
  induction rest with
  | nil =>
    intro proc grp
    constructor
    · intro x hx; simp only [fsiInner] at hx; exact Or.inl hx
    · intro x hx; simp only [fsiInner] at hx; exact Or.inl hx
  | cons e rest ih =>
    intro proc grp
    have weaken : ∀ (P : List String),
        (∀ x ∈ P, x ∈ proc ∨ ∃ e' ∈ rest, e'.1 = x ∧ passesTest h1 e') →
        ∀ x ∈ P, x ∈ proc ∨ ∃ e' ∈ e :: rest, e'.1 = x ∧ passesTest h1 e' := by
      intro P hP x hx
      rcases hP x hx with h | ⟨e', he', hex, hp⟩
      · exact Or.inl h
      · exact Or.inr ⟨e', List.mem_cons_of_mem _ he', hex, hp⟩
    have weakenG : ∀ (P : List String),
        (∀ x ∈ P, x ∈ grp ∨ ∃ e' ∈ rest, e'.1 = x ∧ passesTest h1 e') →
        ∀ x ∈ P, x ∈ grp ∨ ∃ e' ∈ e :: rest, e'.1 = x ∧ passesTest h1 e' := by
      intro P hP x hx
      rcases hP x hx with h | ⟨e', he', hex, hp⟩
      · exact Or.inl h
      · exact Or.inr ⟨e', List.mem_cons_of_mem _ he', hex, hp⟩
    by_cases hin : e.1 ∈ proc
    · simp only [fsiInner]
      rw [if_pos hin]
      exact ⟨weakenG _ (ih proc grp).1, weaken _ (ih proc grp).2⟩
    · cases he : e.2 with
      | none =>
        simp only [fsiInner, he]
        rw [if_neg hin]
        exact ⟨weakenG _ (ih proc grp).1, weaken _ (ih proc grp).2⟩
      | some h2 =>
        by_cases h2e : h2 = ""
        · simp only [fsiInner, he]
          rw [if_neg hin, if_pos h2e]
          exact ⟨weakenG _ (ih proc grp).1, weaken _ (ih proc grp).2⟩
        · by_cases hsim : (85:ℚ)/100 < calculateHashSimilarity h1 h2
          · simp only [fsiInner, he]
            rw [if_neg hin, if_neg h2e, if_pos hsim]
            have hpass : passesTest h1 e := ⟨h2, he, h2e, hsim⟩
            constructor
            · intro x hx
              rcases (ih (e.1 :: proc) (grp ++ [e.1])).1 x hx with h | ⟨e', he', hex, hp⟩
              · rcases List.mem_append.mp h with h | h
                · exact Or.inl h
                · simp only [List.mem_singleton] at h
                  exact Or.inr ⟨e, List.mem_cons_self _ _, h.symm, hpass⟩
              · exact Or.inr ⟨e', List.mem_cons_of_mem _ he', hex, hp⟩
            · intro x hx
              rcases (ih (e.1 :: proc) (grp ++ [e.1])).2 x hx with h | ⟨e', he', hex, hp⟩
              · rcases List.mem_cons.mp h with h | h
                · exact Or.inr ⟨e, List.mem_cons_self _ _, h.symm, hpass⟩
                · exact Or.inl h
              · exact Or.inr ⟨e', List.mem_cons_of_mem _ he', hex, hp⟩
          · simp only [fsiInner, he]
            rw [if_neg hin, if_neg h2e, if_neg hsim]
            exact ⟨weakenG _ (ih proc grp).1, weaken _ (ih proc grp).2⟩

/-- Every group the outer pass emits has at least two members and carries
the fixed similarity score `0.9`. -/
theorem fsiOuter_groups_spec :
    ∀ (l : List DupEntry) (proc : List String),
      ∀ g ∈ fsiOuter l proc, 2 ≤ g.group.length ∧ g.similarity = 9/10 := by
  intro l
  induction l with
  | nil => intro proc g hg; simp [fsiOuter] at hg
  | cons e rest ih =>
    intro proc g hg
    by_cases hin : e.1 ∈ proc
    · rw [fsiOuter, if_pos hin] at hg
      exact ih proc g hg
    · cases he : e.2 with
      | none =>
        rw [fsiOuter] at hg
        rw [if_neg hin] at hg
        simp only [he] at hg
        exact ih proc g hg
      | some h1 =>
        rw [fsiOuter] at hg
        rw [if_neg hin] at hg
        simp only [he] at hg
        by_cases h1e : h1 = ""
        · rw [if_pos h1e] at hg
          exact ih proc g hg
        · rw [if_neg h1e] at hg
          by_cases hlen : 1 < (fsiInner h1 rest proc [e.1]).1.length
          · rw [if_pos hlen] at hg
            rcases List.mem_cons.mp hg with rfl | hg
            · exact ⟨hlen, rfl⟩
            · exact ih _ g hg
          · rw [if_neg hlen] at hg
            exact ih _ g hg

/-- Two distinct members of a list occupy two positions, in one order or
the other. -/
theorem two_mem_split {α : Type} {l : List α} {a b : α}
    (ha : a ∈ l) (hb : b ∈ l) (hab : a ≠ b) :
    (∃ l1 l2 l3, l = l1 ++ a :: l2 ++ b :: l3) ∨
      (∃ l1 l2 l3, l = l1 ++ b :: l2 ++ a :: l3) := by
  induction l with
  | nil => simp at ha
  | cons c rest ih =>
    rcases List.mem_cons.mp ha with rfl | ha'
    · have hb' : b ∈ rest := by
        rcases List.mem_cons.mp hb with h | h
        · exact absurd h.symm hab
        · exact h
      obtain ⟨s, t, hst⟩ := List.append_of_mem hb'
      exact Or.inl ⟨[], s, t, by rw [hst]; rfl⟩
    · rcases List.mem_cons.mp hb with rfl | hb'
      · obtain ⟨s, t, hst⟩ := List.append_of_mem ha'
        exact Or.inr ⟨[], s, t, by rw [hst]; rfl⟩
      · rcases ih ha' hb' with ⟨l1, l2, l3, h⟩ | ⟨l1, l2, l3, h⟩
        · exact Or.inl ⟨c :: l1, l2, l3, by rw [h]; rfl⟩
        · exact Or.inr ⟨c :: l1, l2, l3, by rw [h]; rfl⟩

/-- A list containing two distinct elements has more than one element. -/
theorem one_lt_length_of_two_mem {α : Type} {l : List α} {a b : α}
    (ha : a ∈ l) (hb : b ∈ l) (hab : a ≠ b) : 1 < l.length := by
  match l with
  | [] => simp at ha
  | [x] =>
    simp only [List.mem_singleton] at ha hb
    exact absurd (ha.trans hb.symm) hab
  | x :: y :: rest => simp [Nat.lt_add_of_pos_left]

/-- In a list whose images under `f` are distinct, two entries at
different positions have different images. -/
theorem nodup_split_ne {α β : Type} (f : α → β) :
    ∀ (l1 : List α) (l2 l3 : List α) (a b : α),
      ((l1 ++ a :: l2 ++ b :: l3).map f).Nodup → f a ≠ f b := by
  intro l1
  induction l1 with
  | nil =>
    intro l2 l3 a b hnodup
    rw [show ([] ++ a :: l2) ++ b :: l3 = a :: (l2 ++ b :: l3) from by simp]
      at hnodup
    rw [List.map_cons, List.nodup_cons] at hnodup
    intro hEq
    apply hnodup.1
    rw [hEq]
    exact List.mem_map_of_mem f (by simp)
  | cons c l1' ih =>
    intro l2 l3 a b hnodup
    rw [show ((c :: l1') ++ a :: l2) ++ b :: l3 =
        c :: ((l1' ++ a :: l2) ++ b :: l3) from by simp] at hnodup
    rw [List.map_cons, List.nodup_cons] at hnodup
    exact ih l2 l3 a b hnodup.2

/-- Core of the identical-hash grouping property: if two images with the
same non-empty hash sit at two positions of the scanned list, the ids are
distinct throughout, and neither is processed yet, the outer pass emits a
group containing both. -/
theorem fsiOuter_pairs (h : String) (hne : h ≠ "") :
    ∀ (l1 l2 l3 : List DupEntry) (a b : DupEntry) (proc : List String),
      ((l1 ++ a :: l2 ++ b :: l3).map Prod.fst).Nodup →
      a.2 = some h → b.2 = some h →
      a.1 ∉ proc → b.1 ∉ proc →
      ∃ g ∈ fsiOuter (l1 ++ a :: l2 ++ b :: l3) proc,
        a.1 ∈ g.group ∧ b.1 ∈ g.group := by
  have hsimh : (85:ℚ)/100 < calculateHashSimilarity h h := by
    rw [calculateHashSimilarity_self h hne]
    norm_num
  intro l1
  induction l1 with
  | nil =>
    intro l2 l3 a b proc hnodup ha hb hap hbp
    rw [show (([] : List DupEntry) ++ a :: l2) ++ b :: l3 =
        a :: (l2 ++ b :: l3) from by simp] at hnodup ⊢
    have hab : a.1 ≠ b.1 := nodup_split_ne Prod.fst [] l2 l3 a b
      (by simpa using hnodup)
    have hnodup' : ((l2 ++ b :: l3).map Prod.fst).Nodup := by
      simp only [List.map_cons, List.nodup_cons] at hnodup
      exact hnodup.2
    have hbmem : b ∈ l2 ++ b :: l3 := by simp
    have hbin : b.1 ∈ (fsiInner h (l2 ++ b :: l3) proc [a.1]).1 :=
      fsiInner_adds h (l2 ++ b :: l3) proc [a.1] b h hbmem hnodup' hbp hb
        hne hsimh
    have hain : a.1 ∈ (fsiInner h (l2 ++ b :: l3) proc [a.1]).1 := by
      obtain ⟨t, ht⟩ := fsiInner_group_extends h (l2 ++ b :: l3) proc [a.1]
      rw [ht]
      simp
    have hlen : 1 < (fsiInner h (l2 ++ b :: l3) proc [a.1]).1.length :=
      one_lt_length_of_two_mem hain hbin hab
    rw [fsiOuter, if_neg hap]
    simp only [ha]
    rw [if_neg hne, if_pos hlen]
    exact ⟨_, List.mem_cons_self _ _, hain, hbin⟩
  | cons e l1' ih =>
    intro l2 l3 a b proc hnodup hha hhb hap hbp
    rw [show ((e :: l1') ++ a :: l2) ++ b :: l3 =
        e :: ((l1' ++ a :: l2) ++ b :: l3) from by simp] at hnodup ⊢
    have hnodup' : ((l1' ++ a :: l2 ++ b :: l3).map Prod.fst).Nodup := by
      simp only [List.map_cons, List.nodup_cons] at hnodup
      exact hnodup.2
    have hhead : e.1 ∉ (l1' ++ a :: l2 ++ b :: l3).map Prod.fst := by
      simp only [List.map_cons, List.nodup_cons] at hnodup
      exact hnodup.1
    have hamem : a ∈ l1' ++ a :: l2 ++ b :: l3 := by simp
    have hbmem : b ∈ l1' ++ a :: l2 ++ b :: l3 := by simp
    have hea : e.1 ≠ a.1 := fun hEq =>
      hhead (hEq ▸ List.mem_map_of_mem Prod.fst hamem)
    have heb : e.1 ≠ b.1 := fun hEq =>
      hhead (hEq ▸ List.mem_map_of_mem Prod.fst hbmem)
    have hab : a.1 ≠ b.1 := nodup_split_ne Prod.fst l1' l2 l3 a b hnodup'
    by_cases hin : e.1 ∈ proc
    · rw [fsiOuter, if_pos hin]
      exact ih l2 l3 a b proc hnodup' hha hhb hap hbp
    · cases he : e.2 with
      | none =>
        rw [fsiOuter, if_neg hin]
        simp only [he]
        exact ih l2 l3 a b proc hnodup' hha hhb hap hbp
      | some h1 =>
        by_cases h1e : h1 = ""
        · rw [fsiOuter, if_neg hin]
          simp only [he]
          rw [if_pos h1e]
          exact ih l2 l3 a b proc hnodup' hha hhb hap hbp
        · rw [fsiOuter, if_neg hin]
          simp only [he]
          rw [if_neg h1e]
          by_cases hpass : (85:ℚ)/100 <
              calculateHashSimilarity h1 h
          · have hain : a.1 ∈
                (fsiInner h1 (l1' ++ a :: l2 ++ b :: l3) proc [e.1]).1 :=
              fsiInner_adds h1 _ proc [e.1] a h hamem hnodup' hap hha hne hpass
            have hbin : b.1 ∈
                (fsiInner h1 (l1' ++ a :: l2 ++ b :: l3) proc [e.1]).1 :=
              fsiInner_adds h1 _ proc [e.1] b h hbmem hnodup' hbp hhb hne hpass
            have hlen : 1 <
                (fsiInner h1 (l1' ++ a :: l2 ++ b :: l3) proc [e.1]).1.length :=
              one_lt_length_of_two_mem hain hbin hab
            rw [if_pos hlen]
            exact ⟨_, List.mem_cons_self _ _, hain, hbin⟩
          · have hnot : ∀ x : DupEntry, x ∈ l1' ++ a :: l2 ++ b :: l3 →
                x.2 = some h → x.1 ∉ proc → x.1 ≠ e.1 →
                x.1 ∉ (fsiInner h1 (l1' ++ a :: l2 ++ b :: l3) proc [e.1]).1 ∧
                  x.1 ∉ (fsiInner h1 (l1' ++ a :: l2 ++ b :: l3) proc [e.1]).2 := by
              intro x hxmem hxh hxp hxe
              have hxentry : ∀ e' : DupEntry, e' ∈ l1' ++ a :: l2 ++ b :: l3 →
                  e'.1 = x.1 → ¬passesTest h1 e' := by
                intro e' he' hex hp
                have hx : e' = x :=
                  List.inj_on_of_nodup_map hnodup' he' hxmem hex
                subst hx
                obtain ⟨h2, hh2, _, hsim2⟩ := hp
                rw [hxh] at hh2
                exact hpass (Option.some.inj hh2 ▸ hsim2)
              constructor
              · intro hx
                rcases (fsiInner_provenance h1 (l1' ++ a :: l2 ++ b :: l3)
                    proc [e.1]).1 x.1 hx with hg | ⟨e', he', hex, hp⟩
                · simp only [List.mem_singleton] at hg
                  exact hxe hg
                · exact hxentry e' he' hex hp
              · intro hx
                rcases (fsiInner_provenance h1 (l1' ++ a :: l2 ++ b :: l3)
                    proc [e.1]).2 x.1 hx with hg | ⟨e', he', hex, hp⟩
                · exact hxp hg
                · exact hxentry e' he' hex hp
            obtain ⟨hag, hap2⟩ := hnot a hamem hha hap (fun hEq => hea hEq.symm)
            obtain ⟨hbg, hbp2⟩ := hnot b hbmem hhb hbp (fun hEq => heb hEq.symm)
            by_cases hlen : 1 <
                (fsiInner h1 (l1' ++ a :: l2 ++ b :: l3) proc [e.1]).1.length
            · rw [if_pos hlen]
              have hap' : a.1 ∉
                  (fsiInner h1 (l1' ++ a :: l2 ++ b :: l3) proc [e.1]).1 ++
                    (fsiInner h1 (l1' ++ a :: l2 ++ b :: l3) proc [e.1]).2 := by
                intro hx
                rcases List.mem_append.mp hx with hx | hx
                · exact hag hx
                · exact hap2 hx
              have hbp' : b.1 ∉
                  (fsiInner h1 (l1' ++ a :: l2 ++ b :: l3) proc [e.1]).1 ++
                    (fsiInner h1 (l1' ++ a :: l2 ++ b :: l3) proc [e.1]).2 := by
                intro hx
                rcases List.mem_append.mp hx with hx | hx
                · exact hbg hx
                · exact hbp2 hx
              obtain ⟨g, hg, hga, hgb⟩ := ih l2 l3 a b _ hnodup' hha hhb hap' hbp'
              exact ⟨g, List.mem_cons_of_mem _ hg, hga, hgb⟩
            · rw [if_neg hlen]
              exact ih l2 l3 a b _ hnodup' hha hhb hap2 hbp2

/-- C6 amended — `findSimilarImages` emits only groups with at least two
members, each with similarity exactly `0.9`; and, provided the image ids
are pairwise distinct, any two input images with identical *non-empty*
hash strings end up in one emitted group, in every input order and
whatever other images are present.  (Two images whose hashes are the
identical *empty* string are skipped by the falsy-hash guard and never
grouped — see the counterexample.) -/
theorem findSimilarImages_spec (l : List DupEntry) :
    (∀ g ∈ findSimilarImages l, 2 ≤ g.group.length ∧ g.similarity = 9/10) ∧
      ((l.map Prod.fst).Nodup →
        ∀ (a b : DupEntry) (h : String), a ∈ l → b ∈ l → a.1 ≠ b.1 →
          a.2 = some h → b.2 = some h → h ≠ "" →
          ∃ g ∈ findSimilarImages l, a.1 ∈ g.group ∧ b.1 ∈ g.group) := by
  constructor
  · exact fsiOuter_groups_spec l []
  · intro hnodup a b h ha hb hab hha hhb hne
    have habent : a ≠ b := fun hEq => hab (by rw [hEq])
    rcases two_mem_split ha hb habent with ⟨l1, l2, l3, rfl⟩ |
      ⟨l1, l2, l3, rfl⟩
    · exact fsiOuter_pairs h hne l1 l2 l3 a b [] hnodup hha hhb (by simp)
        (by simp)
    · obtain ⟨g, hg, hgb, hga⟩ := fsiOuter_pairs h hne l1 l2 l3 b a []
        hnodup hhb hha (by simp) (by simp)
      exact ⟨g, hg, hga, hgb⟩

/-- Concrete instantiation of `findSimilarImages_spec`: two images with
the same non-empty hash are grouped together. -/
theorem findSimilarImages_spec_witness :
    ((([("a", some "11"), ("b", some "11")] : List DupEntry).map
        Prod.fst).Nodup ∧
      (("a", some "11") : DupEntry) ∈
        ([("a", some "11"), ("b", some "11")] : List DupEntry) ∧
      (("b", some "11") : DupEntry) ∈
        ([("a", some "11"), ("b", some "11")] : List DupEntry) ∧
      ("a" : String) ≠ "b" ∧ ("11" : String) ≠ "") ∧
      ∃ g ∈ findSimilarImages [("a", some "11"), ("b", some "11")],
        "a" ∈ g.group ∧ "b" ∈ g.group :=
  ⟨⟨by decide, by decide, by decide, by decide, by decide⟩,
    (findSimilarImages_spec [("a", some "11"), ("b", some "11")]).2
      (by decide) ("a", some "11") ("b", some "11") "11" (by decide)
      (by decide) (by decide) rfl rfl (by decide)⟩

/-- C6 counterexample — two images whose hash strings are 100% identical
(both the empty string, as `pHash` is typed `string` and `""` is falsy in
JS) are *not* grouped: the `!hash1` / `!hash2` guards skip them, so
`findSimilarImages` returns no group at all. -/
theorem identical_empty_hashes_not_grouped_counterexample :
    (("a", some "") : DupEntry).2 = (("b", some "") : DupEntry).2 ∧
      findSimilarImages [("a", some ""), ("b", some "")] = [] ∧
      ¬∃ g ∈ findSimilarImages [("a", some ""), ("b", some "")],
          "a" ∈ g.group ∧ "b" ∈ g.group :=
  ⟨rfl, by decide, by decide⟩

/-- Every retained pixel of a byte buffer has all three channels in
`[0, 255]`. -/
theorem retainedPixels_bounds :
    ∀ (data : List Nat), (∀ v ∈ data, v ≤ 255) →
      ∀ p ∈ retainedPixels data,
        (0 ≤ p.1 ∧ p.1 ≤ 255) ∧ (0 ≤ p.2.1 ∧ p.2.1 ≤ 255) ∧
          (0 ≤ p.2.2 ∧ p.2.2 ≤ 255)
  | [], _, p, hp => by simp [retainedPixels] at hp
  | [r], _, p, hp => by simp [retainedPixels] at hp
  | [r, g], _, p, hp => by simp [retainedPixels] at hp
  | [r, g, b], _, p, hp => by simp [retainedPixels] at hp
  | r :: g :: b :: a :: rest, hb, p, hp => by
    rw [retainedPixels] at hp
    rcases List.mem_append.mp hp with h | h
    · by_cases ha : 128 < a
      · rw [if_pos ha] at h
        simp only [List.mem_singleton] at h
        subst h
        refine ⟨⟨Nat.cast_nonneg r, ?_⟩, ⟨Nat.cast_nonneg g, ?_⟩,
          ⟨Nat.cast_nonneg b, ?_⟩⟩
        · show ((r:ℚ)) ≤ 255
          exact_mod_cast hb r (by simp)
        · show ((g:ℚ)) ≤ 255
          exact_mod_cast hb g (by simp)
        · show ((b:ℚ)) ≤ 255
          exact_mod_cast hb b (by simp)
      · rw [if_neg ha] at h
        simp at h
    · exact retainedPixels_bounds rest
        (fun v hv => hb v (by simp [hv])) p h

/-- The mean of a non-empty list of rationals in `[0, 255]` lies in
`[0, 255]`. -/
theorem mean_bounds (l : List ℚ) (hne : l ≠ [])
    (h0 : ∀ x ∈ l, 0 ≤ x) (h255 : ∀ x ∈ l, x ≤ 255) :
    0 ≤ l.sum / (l.length : ℚ) ∧ l.sum / (l.length : ℚ) ≤ 255 := by
  have hlen : 0 < (l.length : ℚ) := by
    have := List.length_pos.mpr hne
    exact_mod_cast this
  constructor
  · exact div_nonneg (List.sum_nonneg h0) (le_of_lt hlen)
  · rw [div_le_iff hlen]
    have := List.sum_le_card_nsmul l 255 h255
    rwa [nsmul_eq_mul, mul_comm] at this

/-- If `f` succeeds with property `Q` on every element, `mapM f` succeeds
with a list of the same length all of whose elements satisfy `Q`. -/
theorem mapM_option_all {α β : Type} (Q : β → Prop) (f : α → Option β) :
    ∀ (l : List α), (∀ x ∈ l, ∃ y, f x = some y ∧ Q y) →
      ∃ ys, l.mapM f = some ys ∧ ys.length = l.length ∧ ∀ y ∈ ys, Q y := by
  intro l
  induction l with
  | nil => intro _; exact ⟨[], by rw [List.mapM_nil]; rfl, rfl, by simp⟩
  | cons x xs ih =>
    intro h
    obtain ⟨y, hy, hQ⟩ := h x (by simp)
    obtain ⟨ys, hys, hlen, hall⟩ := ih (fun z hz => h z (by simp [hz]))
    refine ⟨y :: ys, ?_, by simp [hlen], ?_⟩
    · rw [List.mapM_cons, hy, hys]
      rfl
    · intro z hz
      rcases List.mem_cons.mp hz with rfl | hz
      · exact hQ
      · exact hall z hz

/-- `kMeansStep` preserves the number of centroids. -/
theorem kMeansStep_length (pixels cs : List RGBQ) :
    (kMeansStep pixels cs).length = cs.length := by
  simp [kMeansStep]

/-- `kMeansStep` keeps every centroid channel inside `[0, 255]` when the
pixels are in range: an untouched centroid is unchanged and an updated one
is a mean of pixels. -/
theorem kMeansStep_bounds (pixels cs : List RGBQ)
    (hpix : ∀ p ∈ pixels,
      (0 ≤ p.1 ∧ p.1 ≤ 255) ∧ (0 ≤ p.2.1 ∧ p.2.1 ≤ 255) ∧
        (0 ≤ p.2.2 ∧ p.2.2 ≤ 255))
    (hcs : ∀ c ∈ cs,
      (0 ≤ c.1 ∧ c.1 ≤ 255) ∧ (0 ≤ c.2.1 ∧ c.2.1 ≤ 255) ∧
        (0 ≤ c.2.2 ∧ c.2.2 ≤ 255)) :
    ∀ c ∈ kMeansStep pixels cs,
      (0 ≤ c.1 ∧ c.1 ≤ 255) ∧ (0 ≤ c.2.1 ∧ c.2.1 ≤ 255) ∧
        (0 ≤ c.2.2 ∧ c.2.2 ≤ 255) := by
  intro c hc
  rw [kMeansStep] at hc
  obtain ⟨jc, hjc, hfc⟩ := List.mem_map.mp hc
  have hmem : jc.2 ∈ cs := by
    rw [← List.enum_map_snd cs]
    exact List.mem_map_of_mem Prod.snd hjc
  by_cases hcl :
      (pixels.filter (fun p => closestCentroid p cs == jc.1)).length = 0
  · rw [if_pos hcl] at hfc
    exact hfc ▸ hcs jc.2 hmem
  · rw [if_neg hcl] at hfc
    have hclne : pixels.filter (fun p => closestCentroid p cs == jc.1) ≠ [] :=
      fun hEq => hcl (by rw [hEq]; rfl)
    have hsub : ∀ p ∈ pixels.filter (fun p => closestCentroid p cs == jc.1),
        (0 ≤ p.1 ∧ p.1 ≤ 255) ∧ (0 ≤ p.2.1 ∧ p.2.1 ≤ 255) ∧
          (0 ≤ p.2.2 ∧ p.2.2 ≤ 255) :=
      fun p hp => hpix p (List.mem_of_mem_filter hp)
    have hmapne : ∀ (f : RGBQ → ℚ),
        (pixels.filter (fun p => closestCentroid p cs == jc.1)).map f ≠ [] := by
      intro f hEq
      exact hclne (List.map_eq_nil.mp hEq)
    have hlen : ∀ (f : RGBQ → ℚ),
        (((pixels.filter (fun p => closestCentroid p cs == jc.1)).map f).length
          : ℚ) =
          ((pixels.filter (fun p => closestCentroid p cs == jc.1)).length : ℚ)
      := by
      intro f
      rw [List.length_map]
    subst hfc
    refine ⟨?_, ?_, ?_⟩
    · have := mean_bounds _ (hmapne (fun p => p.1))
        (fun x hx => by
          obtain ⟨p, hp, rfl⟩ := List.mem_map.mp hx
          exact (hsub p hp).1.1)
        (fun x hx => by
          obtain ⟨p, hp, rfl⟩ := List.mem_map.mp hx
          exact (hsub p hp).1.2)
      rwa [hlen] at this
    · have := mean_bounds _ (hmapne (fun p => p.2.1))
        (fun x hx => by
          obtain ⟨p, hp, rfl⟩ := List.mem_map.mp hx
          exact (hsub p hp).2.1.1)
        (fun x hx => by
          obtain ⟨p, hp, rfl⟩ := List.mem_map.mp hx
          exact (hsub p hp).2.1.2)
      rwa [hlen] at this
    · have := mean_bounds _ (hmapne (fun p => p.2.2))
        (fun x hx => by
          obtain ⟨p, hp, rfl⟩ := List.mem_map.mp hx
          exact (hsub p hp).2.2.1)
        (fun x hx => by
          obtain ⟨p, hp, rfl⟩ := List.mem_map.mp hx
          exact (hsub p hp).2.2.2)
      rwa [hlen] at this

/-- The 20 k-means iterations preserve centroid count and channel
bounds. -/
theorem kMeansIterate_invariant (pixels : List RGBQ)
    (hpix : ∀ p ∈ pixels,
      (0 ≤ p.1 ∧ p.1 ≤ 255) ∧ (0 ≤ p.2.1 ∧ p.2.1 ≤ 255) ∧
        (0 ≤ p.2.2 ∧ p.2.2 ≤ 255)) :
    ∀ (n : Nat) (cs : List RGBQ),
      (∀ c ∈ cs,
        (0 ≤ c.1 ∧ c.1 ≤ 255) ∧ (0 ≤ c.2.1 ∧ c.2.1 ≤ 255) ∧
          (0 ≤ c.2.2 ∧ c.2.2 ≤ 255)) →
      (Nat.iterate (kMeansStep pixels) n cs).length = cs.length ∧
        ∀ c ∈ Nat.iterate (kMeansStep pixels) n cs,
          (0 ≤ c.1 ∧ c.1 ≤ 255) ∧ (0 ≤ c.2.1 ∧ c.2.1 ≤ 255) ∧
            (0 ≤ c.2.2 ∧ c.2.2 ≤ 255) := by
  intro n
  induction n with
  | zero => intro cs hcs; exact ⟨rfl, hcs⟩
  | succ n ih =>
    intro cs hcs
    rw [Function.iterate_succ_apply']
    obtain ⟨hlen, hbnd⟩ := ih cs hcs
    constructor
    · rw [kMeansStep_length, hlen]
    · exact kMeansStep_bounds pixels _ hpix hbnd

/-- With genuine `Math.random()` draws (in `[0,1)`) and a non-empty pixel
list, the centroid initialization succeeds with `k` centroids drawn from
the pixels. -/
theorem kMeansInit_some (pixels : List RGBQ) (k : Nat) (rand : Nat → ℚ)
    (hr : ∀ i, 0 ≤ rand i ∧ rand i < 1) (hne : pixels ≠ []) :
    ∃ cs, kMeansInit pixels k rand = some cs ∧ cs.length = k ∧
      ∀ c ∈ cs, c ∈ pixels := by
  have hlenpos : 0 < pixels.length := List.length_pos.mpr hne
  have harg : ∀ i ∈ List.range k, ∃ y,
      jsArrayGet pixels (rand i * (pixels.length : ℚ)) = some y ∧
        y ∈ pixels := by
    intro i _
    have h0 : (0:ℚ) ≤ rand i * (pixels.length : ℚ) :=
      mul_nonneg (hr i).1 (by exact_mod_cast Nat.zero_le _)
    have h1 : rand i * (pixels.length : ℚ) < (pixels.length : ℚ) := by
      have hl : (0:ℚ) < (pixels.length : ℚ) := by exact_mod_cast hlenpos
      calc rand i * (pixels.length : ℚ)
          < 1 * (pixels.length : ℚ) := by
            exact mul_lt_mul_of_pos_right (hr i).2 hl
        _ = (pixels.length : ℚ) := one_mul _
    have hf0 : (0:ℤ) ≤ ⌊rand i * (pixels.length : ℚ)⌋ :=
      Int.le_floor.mpr (by exact_mod_cast h0)
    have hf1 : ⌊rand i * (pixels.length : ℚ)⌋ < (pixels.length : ℤ) :=
      Int.floor_lt.mpr (by exact_mod_cast h1)
    have hidx : (⌊rand i * (pixels.length : ℚ)⌋).toNat < pixels.length := by
      omega
    refine ⟨pixels.get ⟨(⌊rand i * (pixels.length : ℚ)⌋).toNat, hidx⟩, ?_, ?_⟩
    · rw [jsArrayGet]
      rw [if_neg (by omega)]
      exact List.get?_eq_get hidx
    · exact List.get_mem _ _ _
  obtain ⟨ys, hys, hlen, hall⟩ := mapM_option_all (fun c => c ∈ pixels)
    (fun i => jsArrayGet pixels (rand i * (pixels.length : ℚ)))
    (List.range k) harg
  exact ⟨ys, hys, by rw [hlen, List.length_range], hall⟩

/-- `Math.round` of a channel value in `[0, 255]` lands in `[0, 255]`. -/
theorem jsRound_bounds (q : ℚ) (h0 : 0 ≤ q) (h255 : q ≤ 255) :
    0 ≤ jsRound q ∧ jsRound q ≤ 255 := by
  constructor
  · exact Int.le_floor.mpr (by push_cast; linarith)
  · have : jsRound q < 256 := Int.floor_lt.mpr (by push_cast; linarith)
    omega

/-- A byte renders as exactly two lower-case hex digits. -/
theorem hexByte_valid (n : Nat) (h : n < 256) :
    (hexByte n).length = 2 ∧ ∀ c ∈ (hexByte n).data, isHexDigitCh c := by
  have hfin : ∀ m : Fin 256,
      (hexByte m.val).length = 2 ∧
        ∀ c ∈ (hexByte m.val).data, isHexDigitCh c := by decide
  exact hfin ⟨n, h⟩

/-- A centroid with all channels in `[0, 255]` renders as a valid
6-hex-digit colour string. -/
theorem rgbToHex_valid (c : RGBQ)
    (hc : (0 ≤ c.1 ∧ c.1 ≤ 255) ∧ (0 ≤ c.2.1 ∧ c.2.1 ≤ 255) ∧
      (0 ≤ c.2.2 ∧ c.2.2 ≤ 255)) :
    validHexColor (rgbToHex c) := by
  have h1 := jsRound_bounds c.1 hc.1.1 hc.1.2
  have h2 := jsRound_bounds c.2.1 hc.2.1.1 hc.2.1.2
  have h3 := jsRound_bounds c.2.2 hc.2.2.1 hc.2.2.2
  have hb1 := hexByte_valid (jsRound c.1).toNat (by omega)
  have hb2 := hexByte_valid (jsRound c.2.1).toNat (by omega)
  have hb3 := hexByte_valid (jsRound c.2.2).toNat (by omega)
  have hdata : (rgbToHex c).data =
      '#' :: ((hexByte (jsRound c.1).toNat).data ++
        ((hexByte (jsRound c.2.1).toNat).data ++
          (hexByte (jsRound c.2.2).toNat).data)) := by
    rw [rgbToHex]
    rw [String.data_append, String.data_append, String.data_append]
    simp
  refine ⟨?_, ?_, ?_⟩
  · have e1 : (hexByte (jsRound c.1).toNat).data.length = 2 := hb1.1
    have e2 : (hexByte (jsRound c.2.1).toNat).data.length = 2 := hb2.1
    have e3 : (hexByte (jsRound c.2.2).toNat).data.length = 2 := hb3.1
    have : (rgbToHex c).length = (rgbToHex c).data.length := rfl
    rw [this, hdata]
    simp only [List.length_cons, List.length_append]
    omega
  · rw [hdata]
    rfl
  · rw [hdata]
    intro ch hch
    simp only [List.drop_succ_cons, List.drop_zero] at hch
    rcases List.mem_append.mp hch with h | h
    · exact hb1.2 ch h
    · rcases List.mem_append.mp h with h | h
      · exact hb2.2 ch h
      · exact hb3.2 ch h

/-- C9 amended — whenever the retained pixel set is non-empty, the palette
extraction returns exactly `k = 5` colour strings, each `'#'` followed by
six hexadecimal digits (each channel rounded to the nearest integer and
zero-padded), for every genuine `Math.random()` draw stream and every byte
buffer.  (The empty retained set instead throws, see the
counterexample.) -/
theorem extractColorPalette_spec (data : List Nat) (rand : Nat → ℚ)
    (hr : ∀ i, 0 ≤ rand i ∧ rand i < 1)
    (hb : ∀ v ∈ data, v ≤ 255)
    (hne : retainedPixels data ≠ []) :
    ∃ pal, extractColorPalette data rand = some pal ∧ pal.length = 5 ∧
      ∀ s ∈ pal, validHexColor s := by
  obtain ⟨cs, hcs, hlen, hmem⟩ :=
    kMeansInit_some (retainedPixels data) 5 rand hr hne
  have hpix := retainedPixels_bounds data hb
  have hcsb : ∀ c ∈ cs,
      (0 ≤ c.1 ∧ c.1 ≤ 255) ∧ (0 ≤ c.2.1 ∧ c.2.1 ≤ 255) ∧
        (0 ≤ c.2.2 ∧ c.2.2 ≤ 255) :=
    fun c hc => hpix c (hmem c hc)
  obtain ⟨hilen, hibnd⟩ :=
    kMeansIterate_invariant (retainedPixels data) hpix 20 cs hcsb
  refine ⟨(Nat.iterate (kMeansStep (retainedPixels data)) 20 cs).map rgbToHex,
    ?_, ?_, ?_⟩
  · rw [extractColorPalette, kMeansClustering, hcs]
    rfl
  · rw [List.length_map, hilen, hlen]
  · intro s hs
    obtain ⟨c, hc, rfl⟩ := List.mem_map.mp hs
    exact rgbToHex_valid c (hibnd c hc)

/-- Concrete instantiation of `extractColorPalette_spec` on a one-pixel
opaque buffer. -/
theorem extractColorPalette_spec_witness :
    ((∀ i : Nat, 0 ≤ (fun _ : Nat => (0:ℚ)) i ∧ (fun _ : Nat => (0:ℚ)) i < 1) ∧
      (∀ v ∈ [200, 100, 50, 255], v ≤ 255) ∧
      retainedPixels [200, 100, 50, 255] ≠ []) ∧
      ∃ pal, extractColorPalette [200, 100, 50, 255] (fun _ => 0) = some pal ∧
        pal.length = 5 ∧ ∀ s ∈ pal, validHexColor s :=
  ⟨⟨fun _ => ⟨le_refl 0, by norm_num⟩, by decide, by decide⟩,
    extractColorPalette_spec [200, 100, 50, 255] (fun _ => 0)
      (fun _ => ⟨le_refl 0, by norm_num⟩) (by decide) (by decide)⟩

/-- C9 counterexample — on a buffer whose only pixel is fully transparent
the retained pixel set is empty, and `kMeansClustering` then reads
`pixels[Math.floor(Math.random()*0)] = undefined` and throws a
`TypeError` from `[...undefined]` (modelled as `none`): no 5-entry palette
is produced. -/
theorem empty_retained_palette_throws_counterexample :
    retainedPixels [0, 0, 0, 0] = [] ∧
      extractColorPalette [0, 0, 0, 0] (fun _ => 0) = none := by
  have hget : ∀ q : ℚ, jsArrayGet ([] : List RGBQ) q = none := by
    intro q
    rw [jsArrayGet]
    simp
  have hinit : kMeansInit ([] : List RGBQ) 5 (fun _ => (0:ℚ)) = none := by
    rw [kMeansInit]
    rw [show List.range 5 = [0, 1, 2, 3, 4] from rfl]
    simp [List.mapM_cons, List.mapM.loop, hget]
  constructor
  · rfl
  · rw [extractColorPalette, kMeansClustering]
    rw [show retainedPixels [0, 0, 0, 0] = [] from rfl]
    rw [hinit]
    rfl

/-- `toFixed(3)` rounding keeps `[0,1]` and lands on a multiple of
`1/1000`. -/
theorem round3_bounds (x : ℝ) (h0 : 0 ≤ x) (h1 : x ≤ 1) :
    0 ≤ round3 x ∧ round3 x ≤ 1 ∧ ∃ n : ℤ, round3 x = (n:ℝ)/1000 := by
  have hf0 : (0:ℤ) ≤ ⌊x * 1000 + 1/2⌋ := Int.le_floor.mpr (by push_cast; nlinarith)
  have hf1 : ⌊x * 1000 + 1/2⌋ ≤ 1000 := by
    have : ⌊x * 1000 + 1/2⌋ < 1001 := Int.floor_lt.mpr (by push_cast; nlinarith)
    omega
  refine ⟨?_, ?_, ⟨⌊x * 1000 + 1/2⌋, rfl⟩⟩
  · apply div_nonneg _ (by norm_num)
    exact_mod_cast hf0
  · rw [round3, div_le_one (by norm_num)]
    exact_mod_cast hf1

/-- `toFixed(3)` of `0` is `0`. -/
theorem round3_zero : round3 0 = 0 := by
  rw [round3]
  norm_num

/-- Every per-sample luminance of a byte buffer lies in `[0, 255]`. -/
theorem lumaList_bounds :
    ∀ (data : List Nat), (∀ v ∈ data, v ≤ 255) →
      ∀ b ∈ lumaList data, 0 ≤ b ∧ b ≤ 255
  | [], _, b, hb => by simp [lumaList] at hb
  | [r], _, b, hb => by simp [lumaList] at hb
  | [r, g], _, b, hb => by simp [lumaList] at hb
  | [r, g, b'], _, b, hb => by simp [lumaList] at hb
  | r :: g :: b' :: a :: rest, hv, b, hb => by
    rw [lumaList] at hb
    rcases List.mem_cons.mp hb with rfl | hb
    · constructor
      · positivity
      · have hr : (r:ℚ) ≤ 255 := by exact_mod_cast hv r (by simp)
        have hg : (g:ℚ) ≤ 255 := by exact_mod_cast hv g (by simp)
        have hb2 : (b':ℚ) ≤ 255 := by exact_mod_cast hv b' (by simp)
        rw [div_le_iff (by norm_num : (0:ℚ) < 3)]
        linarith
    · exact lumaList_bounds rest (fun v hv' => hv v (by simp [hv'])) b hb

/-- A buffer with at least one full RGBA group yields at least one
luminance sample. -/
theorem lumaList_ne_nil (data : List Nat) (h : 4 ≤ data.length) :
    lumaList data ≠ [] := by
  match data with
  | [] => simp at h
  | [r] => simp at h
  | [r, g] => simp at h
  | [r, g, b] => simp at h
  | r :: g :: b :: a :: rest =>
    rw [lumaList]
    exact List.cons_ne_nil _ _

/-- The accumulated Sobel magnitude is nonnegative, hence so is the
normalized sharpness. -/
theorem calculateSharpness_nonneg (d : ImageDataM) :
    0 ≤ calculateSharpness d := by
  rw [calculateSharpness]
  apply div_nonneg _ (by positivity)
  apply List.sum_nonneg
  intro row hrow
  obtain ⟨y, _, rfl⟩ := List.mem_map.mp hrow
  apply List.sum_nonneg
  intro v hv
  obtain ⟨x, _, rfl⟩ := List.mem_map.mp hv
  exact Real.sqrt_nonneg _

/-- C7 — for every non-empty pixel buffer (bytes `≤ 255`, length
`4·width·height`), all four quality values lie in `[0,1]` and are
multiples of `1/1000` (3-decimal rounding); and on a uniform-luminance
buffer (in particular any 1×1 buffer) the contrast is `0` — the
zero-variance case divides `0` by the sample count, not by zero. -/
theorem analyzeQuality_spec (d : ImageDataM)
    (hpos : 0 < d.width * d.height)
    (hlen : d.data.length = 4 * (d.width * d.height))
    (hb : ∀ v ∈ d.data, v ≤ 255) :
    ((0 ≤ (analyzeQuality d).sharpness ∧ (analyzeQuality d).sharpness ≤ 1 ∧
        ∃ n : ℤ, (analyzeQuality d).sharpness = (n:ℝ)/1000) ∧
      (0 ≤ (analyzeQuality d).contrast ∧ (analyzeQuality d).contrast ≤ 1 ∧
        ∃ n : ℤ, (analyzeQuality d).contrast = (n:ℝ)/1000) ∧
      (0 ≤ (analyzeQuality d).brightness ∧ (analyzeQuality d).brightness ≤ 1 ∧
        ∃ n : ℤ, (analyzeQuality d).brightness = (n:ℝ)/1000) ∧
      (0 ≤ (analyzeQuality d).score ∧ (analyzeQuality d).score ≤ 1 ∧
        ∃ n : ℤ, (analyzeQuality d).score = (n:ℝ)/1000)) ∧
      ((∃ c, ∀ b ∈ lumaList d.data, b = c) →
        (analyzeQuality d).contrast = 0) := by
  have hbvs_ne : lumaList d.data ≠ [] := lumaList_ne_nil d.data (by omega)
  have hbvs_len : 0 < ((lumaList d.data).length : ℚ) := by
    exact_mod_cast List.length_pos.mpr hbvs_ne
  have hbl := lumaList_bounds d.data hb
  have hsharp_eq : (analyzeQuality d).sharpness =
      round3 (min (calculateSharpness d) 1) := rfl
  have hbr_eq : (analyzeQuality d).brightness =
      round3 ((((lumaList d.data).sum / ((lumaList d.data).length : ℚ) : ℚ)
        : ℝ) / 255) := rfl
  have hcon_eq : (analyzeQuality d).contrast =
      round3 (Real.sqrt ((((lumaList d.data).map (fun b =>
          (b - (lumaList d.data).sum / ((lumaList d.data).length : ℚ))^2)).sum /
          ((lumaList d.data).length : ℚ) : ℚ) : ℝ) / 255) := rfl
  have hscore_eq : (analyzeQuality d).score =
      round3 ((((1 - |(lumaList d.data).sum / ((lumaList d.data).length : ℚ)
            - 128| / 128 : ℚ) : ℝ) +
          min (Real.sqrt ((((lumaList d.data).map (fun b =>
            (b - (lumaList d.data).sum / ((lumaList d.data).length : ℚ))^2)).sum /
            ((lumaList d.data).length : ℚ) : ℚ) : ℝ) / 255 * 2) 1 +
          min (calculateSharpness d) 1) / 3) := rfl
  have hA := mean_bounds (lumaList d.data) hbvs_ne
    (fun x hx => (hbl x hx).1) (fun x hx => (hbl x hx).2)
  have hV0 : 0 ≤ ((lumaList d.data).map (fun b =>
      (b - (lumaList d.data).sum / ((lumaList d.data).length : ℚ))^2)).sum /
      ((lumaList d.data).length : ℚ) := by
    apply div_nonneg _ (le_of_lt hbvs_len)
    apply List.sum_nonneg
    intro x hx
    obtain ⟨b, _, rfl⟩ := List.mem_map.mp hx
    positivity
  have hV255 : ((lumaList d.data).map (fun b =>
      (b - (lumaList d.data).sum / ((lumaList d.data).length : ℚ))^2)).sum /
      ((lumaList d.data).length : ℚ) ≤ 255^2 := by
    rw [div_le_iff hbvs_len]
    have hall : ∀ x ∈ (lumaList d.data).map (fun b =>
        (b - (lumaList d.data).sum / ((lumaList d.data).length : ℚ))^2),
        x ≤ 255^2 := by
      intro x hx
      obtain ⟨b, hbm, rfl⟩ := List.mem_map.mp hx
      have h1 := (hbl b hbm).1
      have h2 := (hbl b hbm).2
      exact sq_le_sq' (by linarith [hA.1, hA.2]) (by linarith [hA.1, hA.2])
    have := List.sum_le_card_nsmul _ _ hall
    rw [List.length_map, nsmul_eq_mul] at this
    calc ((lumaList d.data).map (fun b =>
          (b - (lumaList d.data).sum / ((lumaList d.data).length : ℚ))^2)).sum
        ≤ ((lumaList d.data).length : ℚ) * 255^2 := this
      _ = 255^2 * ((lumaList d.data).length : ℚ) := mul_comm _ _
  have hsqrt255 : Real.sqrt ((((lumaList d.data).map (fun b =>
      (b - (lumaList d.data).sum / ((lumaList d.data).length : ℚ))^2)).sum /
      ((lumaList d.data).length : ℚ) : ℚ) : ℝ) ≤ 255 := by
    calc Real.sqrt _ ≤ Real.sqrt ((255:ℝ)^2) :=
          Real.sqrt_le_sqrt (by exact_mod_cast hV255)
      _ = 255 := Real.sqrt_sq (by norm_num)
  have hcon01 : 0 ≤ Real.sqrt ((((lumaList d.data).map (fun b =>
        (b - (lumaList d.data).sum / ((lumaList d.data).length : ℚ))^2)).sum /
        ((lumaList d.data).length : ℚ) : ℚ) : ℝ) / 255 ∧
      Real.sqrt ((((lumaList d.data).map (fun b =>
        (b - (lumaList d.data).sum / ((lumaList d.data).length : ℚ))^2)).sum /
        ((lumaList d.data).length : ℚ) : ℚ) : ℝ) / 255 ≤ 1 := by
    constructor
    · positivity
    · rw [div_le_one (by norm_num : (0:ℝ) < 255)]
      exact hsqrt255
  refine ⟨⟨?_, ?_, ?_, ?_⟩, ?_⟩
  · rw [hsharp_eq]
    exact round3_bounds _ (le_min (calculateSharpness_nonneg d) zero_le_one)
      (min_le_right _ _)
  · rw [hcon_eq]
    exact round3_bounds _ hcon01.1 hcon01.2
  · rw [hbr_eq]
    apply round3_bounds
    · apply div_nonneg _ (by norm_num)
      exact_mod_cast hA.1
    · rw [div_le_one (by norm_num : (0:ℝ) < 255)]
      exact_mod_cast hA.2
  · rw [hscore_eq]
    have hB01 : (0:ℚ) ≤ 1 - |(lumaList d.data).sum /
          ((lumaList d.data).length : ℚ) - 128| / 128 ∧
        (1 - |(lumaList d.data).sum / ((lumaList d.data).length : ℚ)
          - 128| / 128 : ℚ) ≤ 1 := by
      have habs : |(lumaList d.data).sum / ((lumaList d.data).length : ℚ)
          - 128| ≤ 128 :=
        abs_le.mpr ⟨by linarith [hA.1], by linarith [hA.2]⟩
      have habs0 : (0:ℚ) ≤ |(lumaList d.data).sum /
          ((lumaList d.data).length : ℚ) - 128| := abs_nonneg _
      constructor
      · rw [sub_nonneg, div_le_one (by norm_num : (0:ℚ) < 128)]
        exact habs
      · have : (0:ℚ) ≤ |(lumaList d.data).sum /
            ((lumaList d.data).length : ℚ) - 128| / 128 :=
          div_nonneg habs0 (by norm_num)
        linarith
    have hC01 : (0:ℝ) ≤ min (Real.sqrt ((((lumaList d.data).map (fun b =>
          (b - (lumaList d.data).sum / ((lumaList d.data).length : ℚ))^2)).sum /
          ((lumaList d.data).length : ℚ) : ℚ) : ℝ) / 255 * 2) 1 ∧
        min (Real.sqrt ((((lumaList d.data).map (fun b =>
          (b - (lumaList d.data).sum / ((lumaList d.data).length : ℚ))^2)).sum /
          ((lumaList d.data).length : ℚ) : ℚ) : ℝ) / 255 * 2) 1 ≤ 1 :=
      ⟨le_min (by positivity) zero_le_one, min_le_right _ _⟩
    have hS01 : (0:ℝ) ≤ min (calculateSharpness d) 1 ∧
        min (calculateSharpness d) 1 ≤ 1 :=
      ⟨le_min (calculateSharpness_nonneg d) zero_le_one, min_le_right _ _⟩
    have hBr : ((0:ℝ) ≤ ((1 - |(lumaList d.data).sum /
          ((lumaList d.data).length : ℚ) - 128| / 128 : ℚ) : ℝ)) ∧
        (((1 - |(lumaList d.data).sum / ((lumaList d.data).length : ℚ)
          - 128| / 128 : ℚ) : ℝ) ≤ 1) := by
      constructor
      · exact_mod_cast hB01.1
      · exact_mod_cast hB01.2
    apply round3_bounds
    · apply div_nonneg _ (by norm_num)
      linarith [hBr.1, hC01.1, hS01.1]
    · rw [div_le_one (by norm_num : (0:ℝ) < 3)]
      linarith [hBr.2, hC01.2, hS01.2]
  · rintro ⟨c, hc⟩
    rw [hcon_eq]
    have hAc : (lumaList d.data).sum / ((lumaList d.data).length : ℚ) = c := by
      rw [List.sum_eq_card_nsmul (lumaList d.data) c hc, nsmul_eq_mul]
      field_simp
    have hzero : ((lumaList d.data).map (fun b =>
        (b - (lumaList d.data).sum / ((lumaList d.data).length : ℚ))^2)).sum
        = 0 := by
      apply List.sum_eq_zero
      intro x hx
      obtain ⟨b, hbm, rfl⟩ := List.mem_map.mp hx
      rw [hAc, hc b hbm]
      ring
    rw [hzero]
    rw [zero_div]
    rw [show (((0:ℚ)) : ℝ) = 0 from by norm_num]
    rw [Real.sqrt_zero, zero_div, round3_zero]

theorem analyzeQuality_spec_witness :
    (0 < 1 * 1 ∧ (ImageDataM.mk 1 1 [10, 20, 30, 255]).data.length = 4 * (1 * 1) ∧
      ∀ v ∈ (ImageDataM.mk 1 1 [10, 20, 30, 255]).data, v ≤ 255) ∧
    (0 ≤ (analyzeQuality (ImageDataM.mk 1 1 [10, 20, 30, 255])).score ∧
      (analyzeQuality (ImageDataM.mk 1 1 [10, 20, 30, 255])).score ≤ 1) ∧
    (analyzeQuality (ImageDataM.mk 1 1 [10, 20, 30, 255])).contrast = 0 := by
  have h := analyzeQuality_spec (ImageDataM.mk 1 1 [10, 20, 30, 255])
    (by decide) (by decide) (by decide)
  refine ⟨⟨by decide, by decide, by decide⟩,
    ⟨h.1.2.2.2.1, h.1.2.2.2.2.1⟩, ?_⟩
  apply h.2
  refine ⟨20, ?_⟩
  intro b hb
  simp only [lumaList] at hb
  norm_num at hb
  exact hb
